import Mathlib

set_option linter.unusedVariables false

/-! Formal model of the rag2f plugin template repository: the two renaming
    scripts (scripts/init_plugin.py and scripts/init-plugin.py) and the
    plugin context module (src/rag2f_plugin_template/plugin_context.py).

    Python strings are modelled as `List Char` (sequences of Unicode scalar
    values, exactly the CPython data model for str); raw file contents are
    modelled as `List Nat` (byte sequences).  Filesystems are modelled as an
    association list of file paths (strings, relative to the repository root,
    already normalized so that Path.resolve is the identity) to byte
    contents, together with a list of directory paths. -/

/-- Whitespace class used by the scripts: the ASCII part of the Python regex
    class backslash-s and of str.strip / str.split default whitespace (the
    repository only ever manipulates ASCII text around these calls). -/
def pySpace (c : Char) : Bool :=
  c = ' ' || c = '\t' || c = '\n' || c = '\r' || c = Char.ofNat 11 || c = Char.ofNat 12

/-- UTF-8 encoding of a single Unicode scalar value, as in CPython
    str.encode("utf-8"). -/
def encodeChar (c : Char) : List Nat :=
  let n := c.toNat
  if n < 0x80 then [n]
  else if n < 0x800 then [0xC0 + n / 64, 0x80 + n % 64]
  else if n < 0x10000 then [0xE0 + n / 4096, 0x80 + n / 64 % 64, 0x80 + n % 64]
  else [0xF0 + n / 262144, 0x80 + n / 4096 % 64, 0x80 + n / 64 % 64, 0x80 + n % 64]

/-- UTF-8 encoding of a Python string (CPython Path.write_text with
    encoding="utf-8"). -/
def utf8Encode : List Char → List Nat
  | [] => []
  | c :: t => encodeChar c ++ utf8Encode t

/-- Worker for strict UTF-8 decoding.  The `fuel` argument only forces
    termination; its value is irrelevant as soon as it bounds the length of
    the byte list (decGo_fuel below). -/
def decGo : Nat → List Nat → Option (List Char)
  | _, [] => some []
  | 0, _ :: _ => none
  | fuel + 1, b :: bs =>
    if b < 0x80 then
      (decGo fuel bs).map (fun t => Char.ofNat b :: t)
    else if b < 0xC2 then none
    else if b ≤ 0xDF then
      match bs with
      | b1 :: bs1 =>
        if 0x80 ≤ b1 ∧ b1 ≤ 0xBF then
          (decGo fuel bs1).map (fun t => Char.ofNat ((b - 0xC0) * 64 + (b1 - 0x80)) :: t)
        else none
      | [] => none
    else if b ≤ 0xEF then
      match bs with
      | b1 :: b2 :: bs2 =>
        if (if b = 0xE0 then 0xA0 ≤ b1 ∧ b1 ≤ 0xBF
            else if b = 0xED then 0x80 ≤ b1 ∧ b1 ≤ 0x9F
            else 0x80 ≤ b1 ∧ b1 ≤ 0xBF) ∧ 0x80 ≤ b2 ∧ b2 ≤ 0xBF then
          (decGo fuel bs2).map
            (fun t => Char.ofNat ((b - 0xE0) * 4096 + (b1 - 0x80) * 64 + (b2 - 0x80)) :: t)
        else none
      | _ => none
    else if b ≤ 0xF4 then
      match bs with
      | b1 :: b2 :: b3 :: bs3 =>
        if (if b = 0xF0 then 0x90 ≤ b1 ∧ b1 ≤ 0xBF
            else if b = 0xF4 then 0x80 ≤ b1 ∧ b1 ≤ 0x8F
            else 0x80 ≤ b1 ∧ b1 ≤ 0xBF) ∧ 0x80 ≤ b2 ∧ b2 ≤ 0xBF ∧ 0x80 ≤ b3 ∧ b3 ≤ 0xBF then
          (decGo fuel bs3).map
            (fun t => Char.ofNat
              ((b - 0xF0) * 262144 + (b1 - 0x80) * 4096 + (b2 - 0x80) * 64 + (b3 - 0x80)) :: t)
        else none
      | _ => none
    else none

/-- Strict UTF-8 decoding, CPython bytes.decode("utf-8") with errors set to
    strict: rejects bad continuation bytes, overlong forms, surrogates and
    values above 0x10FFFF, exactly as the branch conditions of decGo encode. -/
def utf8Decode (s : List Nat) : Option (List Char) :=
  decGo s.length s

/-- Worker for Python str.replace: scan left to right, replace the leftmost
    occurrence, continue after the inserted replacement. `fuel` only forces
    termination. -/
def replGo (old new : List Char) : Nat → List Char → List Char
  | _, [] => []
  | 0, s => s
  | fuel + 1, c :: cs =>
    if old ≠ [] ∧ old.isPrefixOf (c :: cs) then
      new ++ replGo old new fuel ((c :: cs).drop old.length)
    else
      c :: replGo old new fuel cs

/-- Python str.replace(old, new) for nonempty old (the scripts only ever
    replace the two fixed nonempty placeholder tokens). -/
def pyReplace (old new s : List Char) : List Char :=
  replGo old new s.length s

/-- Apply a replacement table in order; Python dict iteration is insertion
    order and init_plugin.py inserts the import-name token first. -/
def applyRepl (repl : List (List Char × List Char)) (t : List Char) : List Char :=
  repl.foldl (fun acc p => pyReplace p.1 p.2 acc) t

instance {ε α : Type} [DecidableEq ε] [DecidableEq α] : DecidableEq (Except ε α) := fun a b =>
  match a, b with
  | .error x, .error y =>
    if h : x = y then .isTrue (h ▸ rfl) else .isFalse (fun hc => h (Except.error.inj hc))
  | .ok x, .ok y =>
    if h : x = y then .isTrue (h ▸ rfl) else .isFalse (fun hc => h (Except.ok.inj hc))
  | .error _, .ok _ => .isFalse (fun hc => Except.noConfusion hc)
  | .ok _, .error _ => .isFalse (fun hc => Except.noConfusion hc)

/-- A modelled filesystem: an association list from file path (a string,
    relative to the repository root, in the enumeration order of Path.rglob)
    to raw byte contents, plus the list of directory paths.  Paths are taken
    to be normalized and symlink free, so Path.resolve is the identity on
    them. -/
structure FS where
  files : List (String × List Nat)
  dirs : List String
deriving DecidableEq

/-- Path.read_bytes / read_text source: first entry of the association list
    with the given path. -/
def lookupFile (p : String) : List (String × List Nat) → Option (List Nat)
  | [] => none
  | (q, v) :: rest => if q = p then some v else lookupFile p rest

def fsRead (fs : FS) (p : String) : Option (List Nat) :=
  lookupFile p fs.files

/-- Path.write_text: overwrite the entry in place, or create the file if the
    path does not exist yet. -/
def writeFile (p : String) (v : List Nat) : List (String × List Nat) → List (String × List Nat)
  | [] => [(p, v)]
  | (q, w) :: rest => if q = p then (p, v) :: rest else (q, w) :: writeFile p v rest

def fsWrite (fs : FS) (p : String) (v : List Nat) : FS :=
  ⟨writeFile p v fs.files, fs.dirs⟩

/-- Path.unlink. -/
def removeFile (p : String) : List (String × List Nat) → List (String × List Nat)
  | [] => []
  | (q, w) :: rest => if q = p then removeFile p rest else (q, w) :: removeFile p rest

/-- The final path component (pathlib PurePath.name). -/
def pathNameOf (p : String) : List Char :=
  (p.data.splitOn '/').getLastD []

/-- Index of the last dot of a component, CPython str.rfind of the dot. -/
def lastDotIdx : List Char → Option Nat
  | [] => none
  | c :: rest =>
    match lastDotIdx rest with
    | some i => some (i + 1)
    | none => if c = '.' then some 0 else none

/-- pathlib PurePath.suffix: from the final component name, name[i:] for
    i = name.rfind of the dot whenever 0 < i < len(name) - 1, else the empty
    string. -/
def pathSuffix (p : String) : String :=
  let name := pathNameOf p
  match lastDotIdx name with
  | some i => if 0 < i ∧ i < name.length - 1 then String.mk (name.drop i) else ""
  | none => ""

/-- Scan for an occurrence of pat inside a list (the Python `in` test on
    strings). -/
def containsSeq (pat : List Char) : List Char → Bool
  | [] => pat.isEmpty
  | c :: rest => pat.isPrefixOf (c :: rest) || containsSeq pat rest

/-- The fixed placeholder tokens of the template (init_plugin.py module
    constants). -/
def TEMPLATE_IMPORT_NAME : String := "rag2f_plugin_template"

def TEMPLATE_PACKAGE_NAME : String := "rag2f-plugin-template"

/-- scripts/init_plugin.py _is_text_file: never a directory (the FS file list
    only holds regular files), never inside the version control metadata
    directory (the Python test is the literal "/.git/" inside the absolute
    path string, modelled by prepending the root slash to the relative
    path), and otherwise decided by the suffix allow list or the exact
    names LICENSE / NEXT_VERSION. -/
def isTextFile (p : String) : Bool :=
  if containsSeq ("/.git/").data ('/' :: p.data) then false
  else
    (pathSuffix p = ".py" || pathSuffix p = ".toml" || pathSuffix p = ".json" ||
      pathSuffix p = ".jsonc" || pathSuffix p = ".yml" || pathSuffix p = ".yaml" ||
      pathSuffix p = ".md" || pathSuffix p = ".txt" || pathSuffix p = ".sh" ||
      pathSuffix p = ".cfg" || pathSuffix p = ".in" || pathSuffix p = "") ||
    (String.mk (pathNameOf p) = "LICENSE" || String.mk (pathNameOf p) = "NEXT_VERSION")

/-- scripts/init_plugin.py _replace_in_files over the rglob enumeration:
    returns the changed path list (in enumeration order) and the resulting
    file entries.  Per file: skip non text files, skip on a null byte, skip
    on non UTF-8 content, apply all replacements, record and (when not a dry
    run) write back when the text changed.  The OSError branch of the
    read_bytes call has no counterpart: reads of the modelled files do not
    fail. -/
def replacePass (repl : List (List Char × List Char)) (dryRun : Bool) :
    List (String × List Nat) → List String × List (String × List Nat)
  | [] => ([], [])
  | (p, raw) :: rest =>
    let r := replacePass repl dryRun rest
    if isTextFile p then
      if 0 ∈ raw then (r.1, (p, raw) :: r.2)
      else
        match utf8Decode raw with
        | none => (r.1, (p, raw) :: r.2)
        | some text =>
          let newText := applyRepl repl text
          if newText ≠ text then
            (p :: r.1, (p, if dryRun then raw else utf8Encode newText) :: r.2)
          else (r.1, (p, raw) :: r.2)
    else (r.1, (p, raw) :: r.2)

/-- scripts/init_plugin.py RenamePlan; the fields imp_name and pkg_name model
    the import_name and package_name fields. -/
structure RenamePlan where
  imp_name : String
  pkg_name : String
  plugin_id : String
  description : Option String
  display_name : Option String
deriving DecidableEq

/-- Character class [a-zA-Z_] of the import name pattern. -/
def isImportHead (c : Char) : Bool :=
  ('a' ≤ c && c ≤ 'z') || ('A' ≤ c && c ≤ 'Z') || c = '_'

/-- Character class [a-zA-Z0-9_] of the import name pattern. -/
def isImportChar (c : Char) : Bool :=
  isImportHead c || ('0' ≤ c && c ≤ '9')

/-- re.fullmatch of the _IMPORT_RE pattern (caret [a-zA-Z_][a-zA-Z0-9_]* dollar). -/
def importNameOk (s : String) : Bool :=
  match s.data with
  | [] => false
  | c :: cs => isImportHead c && cs.all isImportChar

/-- Character class [a-z0-9] of the package name pattern. -/
def isPkgHead (c : Char) : Bool :=
  ('a' ≤ c && c ≤ 'z') || ('0' ≤ c && c ≤ '9')

/-- Character class [a-z0-9._-] of the package name pattern. -/
def isPkgChar (c : Char) : Bool :=
  isPkgHead c || c = '.' || c = '_' || c = '-'

/-- re.fullmatch of the _PACKAGE_RE pattern (caret [a-z0-9][a-z0-9._-]* dollar). -/
def packageNameOk (s : String) : Bool :=
  match s.data with
  | [] => false
  | c :: cs => isPkgHead c && cs.all isPkgChar

/-- scripts/init_plugin.py _validate: the four checks in source order, each
    raising SystemExit with a message (modelled as Except.error; SystemExit
    with a string message exits the process with status 1). -/
def validate (plan : RenamePlan) : Except String Unit :=
  if ¬ importNameOk plan.imp_name then
    .error "Invalid --import-name. Expected a valid Python identifier like rag2f_my_plugin."
  else if ¬ packageNameOk plan.pkg_name then
    .error "Invalid --package-name. Expected PEP 508-ish name like rag2f-my-plugin."
  else if plan.plugin_id = "" then
    .error "Invalid --plugin-id (cannot be empty)"
  else if plan.plugin_id ≠ plan.imp_name then
    .error "For this template, --plugin-id must match --import-name."
  else .ok ()

/-- str.splitlines as induced by the MULTILINE anchors: split the text on the
    newline character. -/
def splitLines (t : List Char) : List (List Char) :=
  List.splitOn '\n' t

def joinLines (ls : List (List Char)) : List Char :=
  List.intercalate ['\n'] ls

/-- Split a whitespace run at its last newline: some (a, b) means
    w = a ++ newline :: b with b newline free; none when w holds no
    newline. -/
def lastNLSplit : List Char → Option (List Char × List Char)
  | [] => none
  | c :: rest =>
    match lastNLSplit rest with
    | some (a, b) => some (c :: a, b)
    | none => if c = '\n' then some ([], rest) else none

/-- One attempt of the entry point pattern of init_plugin.py main at a
    position where the MULTILINE caret matches: caret (group of backslash-s
    star) key backslash-s star equals sign backslash-s star quote key colon
    get_plugin_path quote backslash-s star dollar; re.escape makes the key
    literal.  The class backslash-s crosses newlines.  Each greedy
    whitespace run followed by a mandatory non whitespace character (the
    key head under a validated plan, the equals sign, the quote) backtracks
    to exactly the maximal whitespace run; the trailing run backtracks
    until the dollar holds, that is to the end of the text (the whole run
    is consumed) or to the last newline inside the run (everything before
    that newline is consumed).  On success: the captured leading group, the
    unconsumed remainder, and whether the caret matches at the remainder
    (the character just before it is a newline). -/
def entryMatchAt (key : List Char) (s : List Char) :
    Option (List Char × List Char × Bool) :=
  let g1 := s.takeWhile pySpace
  let r1 := s.drop g1.length
  if key.isPrefixOf r1 then
    let r2 := r1.drop key.length
    let w1 := r2.takeWhile pySpace
    match r2.drop w1.length with
    | '=' :: r3 =>
      let w2 := r3.takeWhile pySpace
      let r4 := r3.drop w2.length
      let lit := '"' :: (key ++ (":get_plugin_path\"").data)
      if lit.isPrefixOf r4 then
        let r5 := r4.drop lit.length
        let w := r5.takeWhile pySpace
        if r5.drop w.length = [] then some (g1, [], false)
        else
          match lastNLSplit w with
          | some (a, b) =>
            some (g1, '\n' :: (b ++ r5.drop w.length),
              match a.getLast? with
              | some ch => decide (ch = '\n')
              | none => false)
          | none => none
      else none
    | _ => none
  else none

/-- Worker for the re.sub of the entry point patch with re.MULTILINE: the
    text is scanned position by position; a match may start only where the
    caret matches (the start of the text or just after a newline); a found
    match is replaced by group one followed by the plugin id entry, and the
    scan resumes at the end of the match.  The fuel only forces
    termination: a match always consumes at least the equals sign, so the
    length of the text plus one bounds the number of steps. -/
def entrySubGo (key pid imp : List Char) : Nat → Bool → List Char → List Char
  | 0, _, s => s
  | fuel + 1, atStart, s =>
    if atStart then
      match entryMatchAt key s with
      | some (g1, after, nextStart) =>
        g1 ++ pid ++ ((" = \"").data) ++ imp ++ ((":get_plugin_path\"").data) ++
          entrySubGo key pid imp fuel nextStart after
      | none =>
        match s with
        | [] => []
        | c :: rest => c :: entrySubGo key pid imp fuel (decide (c = '\n')) rest
    else
      match s with
      | [] => []
      | c :: rest => c :: entrySubGo key pid imp fuel (decide (c = '\n')) rest

/-- The entry point patch of init_plugin.py main on a whole manifest text:
    re.sub of the MULTILINE pattern keyed by the new import name, replaced
    by group one, then plugin_id, equals sign and the quoted module path
    built from the new import name. -/
def entryPointPatch (imp pid : String) (t : List Char) : List Char :=
  entrySubGo imp.data pid.data imp.data (t.length + 1) true t

/-- One line of the description patch of init_plugin.py main: caret (group of
    backslash-s star, description, backslash-s star, equals sign,
    backslash-s star) quote [no quote]* quote backslash-s star dollar, with
    the replacement group one followed by the quoted description. -/
def descLinePatch (d : List Char) (line : List Char) : List Char :=
  let ws := line.takeWhile pySpace
  let r1 := line.drop ws.length
  if ("description").data.isPrefixOf r1 then
    let r2 := r1.drop 11
    let ws1 := r2.takeWhile pySpace
    match r2.drop ws1.length with
    | '=' :: r4 =>
      let ws2 := r4.takeWhile pySpace
      match r4.drop ws2.length with
      | '"' :: r6 =>
        let val := r6.takeWhile (fun c => c ≠ '"')
        (match r6.drop val.length with
         | '"' :: r8 =>
           if r8.all pySpace then
             ws ++ ("description").data ++ ws1 ++ '=' :: (ws2 ++ '"' :: (d ++ ['"']))
           else line
         | _ => line)
      | _ => line
    | _ => line
  else line

def descPatch (d : String) (t : List Char) : List Char :=
  joinLines ((splitLines t).map (descLinePatch d.data))

/-- One line of the display name patch of init_plugin.py main on plugin.json:
    caret (group of backslash-s star, quoted name key, backslash-s star,
    colon, backslash-s star) quote [no quote]* quote (group of backslash-s
    star and an optional comma) backslash-s star dollar.  The second group is
    greedy: with no comma it swallows all trailing whitespace. -/
def nameLinePatch (d : List Char) (line : List Char) : List Char :=
  let ws := line.takeWhile pySpace
  let r1 := line.drop ws.length
  if ("\"name\"").data.isPrefixOf r1 then
    let r2 := r1.drop 6
    let ws1 := r2.takeWhile pySpace
    match r2.drop ws1.length with
    | ':' :: r4 =>
      let ws2 := r4.takeWhile pySpace
      match r4.drop ws2.length with
      | '"' :: r6 =>
        let val := r6.takeWhile (fun c => c ≠ '"')
        (match r6.drop val.length with
         | '"' :: r8 =>
           let ws3 := r8.takeWhile pySpace
           (match r8.drop ws3.length with
            | [] =>
              ws ++ ("\"name\"").data ++ ws1 ++ ':' :: (ws2 ++ '"' :: (d ++ '"' :: ws3))
            | ',' :: r9 =>
              if r9.all pySpace then
                ws ++ ("\"name\"").data ++ ws1 ++ ':' :: (ws2 ++ '"' :: (d ++ '"' :: (ws3 ++ [','])))
              else line
            | _ => line)
         | _ => line)
      | _ => line
    | _ => line
  else line

def namePatch (d : String) (t : List Char) : List Char :=
  joinLines ((splitLines t).map (nameLinePatch d.data))

/-- Renaming a directory moves the directory itself, every directory under
    it and every file under it (Path.rename on a directory). -/
def remapKey (o n k : String) : String :=
  if k = o then n
  else if (o.data ++ ['/']).isPrefixOf k.data then String.mk (n.data ++ k.data.drop o.data.length)
  else k

def renameDir (fs : FS) (o n : String) : FS :=
  ⟨fs.files.map (fun e => (remapKey o n e.1, e.2)), fs.dirs.map (remapKey o n)⟩

/-- Path.exists for the two package directory candidates (true also when a
    plain file occupies the path). -/
def dirExists (fs : FS) (d : String) : Bool :=
  fs.dirs.contains d || (fsRead fs d).isSome

/-- scripts/init_plugin.py _rename_package_dir: missing old directory is a
    no-op when the new one exists and fatal otherwise; identical resolved
    paths are a no-op; an existing distinct target is fatal; a dry run stops
    before mutating; otherwise the directory is renamed. -/
def renamePackageDir (fs : FS) (plan : RenamePlan) (dryRun : Bool) : Except String FS :=
  let old_dir := "src/" ++ TEMPLATE_IMPORT_NAME
  let new_dir := "src/" ++ plan.imp_name
  if ¬ dirExists fs old_dir then
    if dirExists fs new_dir then .ok fs
    else .error ("Expected template package folder at " ++ old_dir)
  else if old_dir = new_dir then .ok fs
  else if dirExists fs new_dir then
    .error ("Target package folder already exists: " ++ new_dir)
  else if dryRun then .ok fs
  else .ok (renameDir fs old_dir new_dir)

def pushIfAbsent (c : List String) (p : String) : List String :=
  if c.contains p then c else c ++ [p]

/-- Python truthiness of an optional string (None and the empty string are
    falsy). -/
def truthy : Option String → Bool
  | none => false
  | some s => !s.isEmpty

def pyprojectPath : String := "pyproject.toml"

def pluginJsonPath : String := "plugin.json"

/-- The pyproject.toml block of init_plugin.py main: skipped when the file
    does not exist; otherwise the entry point patch, then, when a
    description was supplied, the description patch, re-reading the file
    between the two.  read_text raising UnicodeDecodeError is an uncaught
    fatal error. -/
def patchPyproject (plan : RenamePlan) (dryRun : Bool) (fs : FS) (changed : List String) :
    FS × Except String (List String) :=
  match fsRead fs pyprojectPath with
  | none => (fs, .ok changed)
  | some raw =>
    match utf8Decode raw with
    | none => (fs, .error "UnicodeDecodeError")
    | some text =>
      let newText := entryPointPatch plan.imp_name plan.plugin_id text
      let fs1 := if newText ≠ text ∧ ¬ dryRun then fsWrite fs pyprojectPath (utf8Encode newText)
        else fs
      let changed1 := if newText ≠ text then pushIfAbsent changed pyprojectPath else changed
      if truthy plan.description then
        match fsRead fs1 pyprojectPath with
        | none => (fs1, .error "FileNotFoundError")
        | some raw2 =>
          match utf8Decode raw2 with
          | none => (fs1, .error "UnicodeDecodeError")
          | some text2 =>
            let newText2 := descPatch (plan.description.getD "") text2
            let fs2 := if newText2 ≠ text2 ∧ ¬ dryRun then
                fsWrite fs1 pyprojectPath (utf8Encode newText2)
              else fs1
            let changed2 := if newText2 ≠ text2 then pushIfAbsent changed1 pyprojectPath
              else changed1
            (fs2, .ok changed2)
      else (fs1, .ok changed1)

/-- The plugin.json block of init_plugin.py main: runs only when the file
    exists and a display name was supplied. -/
def patchPluginJson (plan : RenamePlan) (dryRun : Bool) (fs : FS) (changed : List String) :
    FS × Except String (List String) :=
  match fsRead fs pluginJsonPath with
  | none => (fs, .ok changed)
  | some raw =>
    if truthy plan.display_name then
      match utf8Decode raw with
      | none => (fs, .error "UnicodeDecodeError")
      | some text =>
        let newText := namePatch (plan.display_name.getD "") text
        let fs1 := if newText ≠ text ∧ ¬ dryRun then
            fsWrite fs pluginJsonPath (utf8Encode newText)
          else fs
        let changed1 := if newText ≠ text then pushIfAbsent changed pluginJsonPath else changed
        (fs1, .ok changed1)
    else (fs, .ok changed)

/-- Result of one run of a script: the final filesystem, and either the
    changed file list of a successful run (exit status 0; main prints it
    sorted and deduplicated, the raw list is kept here) or the message of the
    SystemExit / uncaught exception that aborted it (non-zero exit status). -/
structure RunRes where
  fs : FS
  outcome : Except String (List String)
deriving DecidableEq

/-- The two structured patch blocks of init_plugin.py main, in source order;
    an uncaught exception in either aborts the run. -/
def patchPhase (plan : RenamePlan) (dryRun : Bool) (fs2 : FS) (changed : List String) : RunRes :=
  match patchPyproject plan dryRun fs2 changed with
  | (fs3, .error m) => ⟨fs3, .error m⟩
  | (fs3, .ok ch1) =>
    match patchPluginJson plan dryRun fs3 ch1 with
    | (fs4, .error m) => ⟨fs4, .error m⟩
    | (fs4, .ok ch2) => ⟨fs4, .ok ch2⟩

/-- scripts/init_plugin.py main after argument parsing: validate, then the
    text substitution pass, then the package directory rename, then the two
    structured patch blocks, in source order. -/
def runInit (plan : RenamePlan) (dryRun : Bool) (fs : FS) : RunRes :=
  match validate plan with
  | .error m => ⟨fs, .error m⟩
  | .ok _ =>
    let repl := [(TEMPLATE_IMPORT_NAME.data, plan.imp_name.data),
                 (TEMPLATE_PACKAGE_NAME.data, plan.pkg_name.data)]
    let pr := replacePass repl dryRun fs.files
    let fs1 : FS := ⟨pr.2, fs.dirs⟩
    match renamePackageDir fs1 plan dryRun with
    | .error m => ⟨fs1, .error m⟩
    | .ok fs2 => patchPhase plan dryRun fs2 pr.1

/-- Plan construction in init_plugin.py main: plugin_id defaults to the name
    of the import through the Python or operator (an empty string argument
    also falls back). -/
def mkPlan (impArg pkgArg : String) (pidArg descArg dispArg : Option String) : RenamePlan :=
  { imp_name := impArg, pkg_name := pkgArg,
    plugin_id :=
      match pidArg with
      | some s => if s.isEmpty then impArg else s
      | none => impArg,
    description := descArg, display_name := dispArg }

/-- Python str.strip with default (whitespace) separators, ASCII subset. -/
def pyStrip (l : List Char) : List Char :=
  ((l.dropWhile pySpace).reverse.dropWhile pySpace).reverse

/-- Worker for Python str.split() with no separator: whitespace runs
    delimit words, empty words are dropped. -/
def wordsGo (cur : List Char) : List Char → List (List Char)
  | [] => if cur.isEmpty then [] else [cur.reverse]
  | c :: rest =>
    if pySpace c then
      if cur.isEmpty then wordsGo [] rest else cur.reverse :: wordsGo [] rest
    else wordsGo (c :: cur) rest

def pyWords (l : List Char) : List (List Char) :=
  wordsGo [] l

/-- scripts/init-plugin.py normalize_plugin_name: strip, reject the empty
    result, collapse inner whitespace, replace dashes and underscores by
    spaces, collapse again and lowercase (ASCII lowercasing; the template
    names in play are ASCII), then derive the underscore and dash variants.
    Returns (original, underscore variant, dash variant). -/
def normalizePluginName (plugin_raw : String) : Except String (String × String × String) :=
  let original := pyStrip plugin_raw.data
  if original.isEmpty then .error "Invalid name, aborting."
  else
    let normalized := List.intercalate [' '] (pyWords original)
    let cleaned0 := normalized.map (fun c => if c = '-' then ' ' else c)
    let cleaned1 := cleaned0.map (fun c => if c = '_' then ' ' else c)
    let cleaned := (List.intercalate [' '] (pyWords cleaned1)).map Char.toLower
    let underscore := cleaned.map (fun c => if c = ' ' then '_' else c)
    let dash := cleaned.map (fun c => if c = ' ' then '-' else c)
    .ok (String.mk original, String.mk underscore, String.mk dash)

/-- scripts/init-plugin.py replace_in_file on one file content: files that
    fail UTF-8 decoding are skipped with a warning (there is no null byte
    check in this variant); otherwise both placeholder tokens are replaced
    and the file is rewritten when the text changed.  Returns the changed
    flag and the resulting content. -/
def replaceInFileContent (plugin_snake plugin_dash : String) (raw : List Nat) :
    Bool × List Nat :=
  match utf8Decode raw with
  | none => (false, raw)
  | some text =>
    let replaced := pyReplace TEMPLATE_IMPORT_NAME.data plugin_snake.data text
    let replaced2 := pyReplace TEMPLATE_PACKAGE_NAME.data plugin_dash.data replaced
    if replaced2 = text then (false, raw)
    else (true, utf8Encode replaced2)

/-- iter_root_files: plain files directly under the repository root. -/
def isRootFile (p : String) : Bool :=
  !(containsSeq ['/'] p.data)

/-- iter_github_files: files anywhere under .github. -/
def isGithubFile (p : String) : Bool :=
  (".github/").data.isPrefixOf p.data

def applyReplaceTo (sel : String → Bool) (snake dash : String)
    (files : List (String × List Nat)) : List (String × List Nat) :=
  files.map (fun e => if sel e.1 then (e.1, (replaceInFileContent snake dash e.2).2) else e)

/-- scripts/init-plugin.py rename_src_dir: a missing source directory is
    logged and skipped (even when the target is also missing); an existing
    distinct target raises FileExistsError; otherwise the directory is
    renamed. -/
def renameSrcDir (fs : FS) (plugin_snake : String) : Except String FS :=
  let old_src := "src/" ++ TEMPLATE_IMPORT_NAME
  let new_src := "src/" ++ plugin_snake
  if ¬ dirExists fs old_src then .ok fs
  else if dirExists fs new_src ∧ old_src ≠ new_src then
    .error "FileExistsError"
  else .ok (renameDir fs old_src new_src)

/-- scripts/init-plugin.py update_plugin_json.  The json.loads, name field
    assignment and json.dumps composite is abstracted as the parameter jsonF
    (which may fail, modelling a JSON parse error); what the claims depend on
    is the control flow around it: the file is read unconditionally, so a
    missing plugin.json raises FileNotFoundError, and on success the file is
    rewritten with the transformed content. -/
def updatePluginJson (jsonF : String → List Nat → Except String (List Nat))
    (fs : FS) (plugin_original : String) : Except String FS :=
  match fsRead fs pluginJsonPath with
  | none => .error "FileNotFoundError"
  | some raw =>
    match jsonF plugin_original raw with
    | .error m => .error m
    | .ok out => .ok (fsWrite fs pluginJsonPath out)

def hookPath : String := ".git/hooks/pre-commit"

/-- scripts/init-plugin.py remove_pre_commit_hook: unlink the hook file when
    it exists (no dry-run guard exists in this script). -/
def removePreCommitHook (fs : FS) : FS :=
  if (fsRead fs hookPath).isSome then ⟨removeFile hookPath fs.files, fs.dirs⟩ else fs

structure RunResI where
  fs : FS
  outcome : Except String Nat
deriving DecidableEq

/-- scripts/init-plugin.py main: inputName is the --name argument or the
    prompted value; a normalization failure prints the message and returns
    exit code 1; otherwise root files and .github files are rewritten in
    place, the src directory is renamed, plugin.json is updated and the
    pre-commit hook is removed, unconditionally.  An uncaught exception
    (rename_src_dir, update_plugin_json) aborts with a non-zero status,
    modelled as Except.error.  The os.environ exports have no filesystem
    effect and are not modelled. -/
def runInteractive (jsonF : String → List Nat → Except String (List Nat))
    (inputName : String) (fs : FS) : RunResI :=
  match normalizePluginName inputName with
  | .error _ => ⟨fs, .ok 1⟩
  | .ok (orig, snake, dash) =>
    let files1 := applyReplaceTo isRootFile snake dash fs.files
    let files2 := applyReplaceTo isGithubFile snake dash files1
    let fs2 : FS := ⟨files2, fs.dirs⟩
    match renameSrcDir fs2 snake with
    | .error m => ⟨fs2, .error m⟩
    | .ok fs3 =>
      match updatePluginJson jsonF fs3 orig with
      | .error m => ⟨fs3, .error m⟩
      | .ok fs4 => ⟨removePreCommitHook fs4, .ok 0⟩

/-- The rag2f instance as seen by plugin_context.get_plugin_id: the call
    rag2f.morpheus.self_plugin_id() either returns an id or raises. -/
structure Rag2f where
  selfPluginId : Except String String

/-- plugin_context.set_plugin_id: store the id in the context variable. -/
def set_plugin_id (x : String) (_ctx : Option String) : Option String :=
  some x

/-- plugin_context.get_plugin_id: return the context value when present;
    otherwise raise RuntimeError when no rag2f instance is given, or compute
    the id from rag2f.morpheus.self_plugin_id() and cache it via
    set_plugin_id, turning a failure of that call into a RuntimeError.
    Returns the id together with the context after the call. -/
def get_plugin_id (rag2f : Option Rag2f) (ctx : Option String) :
    Except String (String × Option String) :=
  match ctx with
  | some pid => .ok (pid, ctx)
  | none =>
    match rag2f with
    | none =>
      .error "Plugin ID not found in context and rag2f instance not provided."
    | some r =>
      match r.selfPluginId with
      | .ok pid => .ok (pid, set_plugin_id pid ctx)
      | .error _ => .error "Failed to compute plugin_id from rag2f.morpheus.self_plugin_id()"

/-- plugin_context.reset_plugin_id. -/
def reset_plugin_id (_ctx : Option String) : Option String :=
  none

/-- Check that no token of the replacement table occurs in any decodable
    file content of the list (the sufficient condition under which a second
    substitution pass has nothing left to do). -/
def tokenFree (repl : List (List Char × List Char)) (files : List (String × List Nat)) : Bool :=
  files.all (fun e =>
    match utf8Decode e.2 with
    | none => true
    | some t => repl.all (fun pr => !(containsSeq pr.1 t)))

/-- Byte content of an ASCII or Unicode string literal, for concrete
    filesystem fixtures. -/
def asBytes (s : String) : List Nat :=
  utf8Encode s.data

theorem replGo_fuel (old new : List Char) :
    ∀ (f1 : Nat) (s : List Char) (f2 : Nat), s.length ≤ f1 → s.length ≤ f2 →
      replGo old new f1 s = replGo old new f2 s := by
  intro f1
  induction f1 with
  | zero =>
    intro s f2 h1 h2
    cases s with
    | nil => cases f2 <;> rfl
    | cons c cs => simp at h1
  | succ f ih =>
    intro s f2 h1 h2
    cases s with
    | nil => cases f2 <;> rfl
    | cons c cs =>
      cases f2 with
      | zero => simp at h2
      | succ f2x =>
        simp only [replGo]
        by_cases hp : old ≠ [] ∧ old.isPrefixOf (c :: cs)
        · rw [if_pos hp, if_pos hp]
          have hol : 1 ≤ old.length := by
            cases old with
            | nil => exact absurd rfl hp.1
            | cons a b => simp
          have hlen : ((c :: cs).drop old.length).length ≤ f := by
            simp only [List.length_drop, List.length_cons]
            simp only [List.length_cons] at h1
            omega
          have hlen2 : ((c :: cs).drop old.length).length ≤ f2x := by
            simp only [List.length_drop, List.length_cons]
            simp only [List.length_cons] at h2
            omega
          rw [ih _ _ hlen hlen2]
        · rw [if_neg hp, if_neg hp]
          have hlen : cs.length ≤ f := by
            simp only [List.length_cons] at h1; omega
          have hlen2 : cs.length ≤ f2x := by
            simp only [List.length_cons] at h2; omega
          rw [ih _ _ hlen hlen2]

theorem pyReplace_nil (old new : List Char) : pyReplace old new [] = [] := rfl

theorem pyReplace_cons (old new : List Char) (c : Char) (cs : List Char) :
    pyReplace old new (c :: cs) =
      if old ≠ [] ∧ old.isPrefixOf (c :: cs) then
        new ++ pyReplace old new ((c :: cs).drop old.length)
      else
        c :: pyReplace old new cs := by
  show replGo old new (c :: cs).length (c :: cs) = _
  simp only [List.length_cons, replGo]
  by_cases hp : old ≠ [] ∧ old.isPrefixOf (c :: cs)
  · rw [if_pos hp, if_pos hp]
    have hol : 0 < old.length := List.length_pos.mpr hp.1
    congr 1
    apply replGo_fuel
    · simp only [List.length_drop, List.length_cons]
      omega
    · exact Nat.le_refl _
  · rw [if_neg hp, if_neg hp]
    rfl

/-- If the pattern does not occur in the string, Python str.replace is the
    identity. -/
theorem pyReplace_of_not_infix (old new s : List Char) (h : ¬ old <:+: s) :
    pyReplace old new s = s := by
  induction s with
  | nil => rfl
  | cons c cs ih =>
    rw [pyReplace_cons]
    have hne : ¬ (old ≠ [] ∧ old.isPrefixOf (c :: cs)) := by
      rintro ⟨-, hpre⟩
      exact h (List.isPrefixOf_iff_prefix.mp hpre).isInfix
    rw [if_neg hne]
    have hcs : ¬ old <:+: cs := fun hin => h (List.infix_cons hin)
    rw [ih hcs]

theorem decGo_fuel :
    ∀ (f1 : Nat) (s : List Nat) (f2 : Nat), s.length ≤ f1 → s.length ≤ f2 →
      decGo f1 s = decGo f2 s := by
  intro f1
  induction f1 with
  | zero =>
    intro s f2 h1 h2
    cases s with
    | nil => cases f2 <;> rfl
    | cons b bs => simp at h1
  | succ f ih =>
    intro s f2 h1 h2
    cases s with
    | nil => cases f2 <;> rfl
    | cons b bs =>
      cases f2 with
      | zero => simp at h2
      | succ g =>
        simp only [List.length_cons] at h1 h2
        cases bs with
        | nil => simp only [decGo]
        | cons b1 bs1 =>
          simp only [List.length_cons] at h1 h2
          cases bs1 with
          | nil =>
            simp only [decGo]
            by_cases hb1 : b < 0x80
            · rw [if_pos hb1, if_pos hb1,
                ih [b1] g (by simp only [List.length_cons, List.length_nil]; omega)
                  (by simp only [List.length_cons, List.length_nil]; omega)]
            · rw [if_neg hb1, if_neg hb1]
          | cons b2 bs2 =>
            simp only [List.length_cons] at h1 h2
            cases bs2 with
            | nil =>
              simp only [decGo]
              by_cases hb1 : b < 0x80
              · rw [if_pos hb1, if_pos hb1,
                  ih [b1, b2] g (by simp only [List.length_cons, List.length_nil]; omega)
                    (by simp only [List.length_cons, List.length_nil]; omega)]
              · rw [if_neg hb1, if_neg hb1]
                by_cases hb2 : b < 0xC2
                · rw [if_pos hb2, if_pos hb2]
                · rw [if_neg hb2, if_neg hb2]
                  by_cases hb3 : b ≤ 0xDF
                  · rw [if_pos hb3, if_pos hb3]
                    by_cases hc : 0x80 ≤ b1 ∧ b1 ≤ 0xBF
                    · rw [if_pos hc, if_pos hc,
                        ih [b2] g (by simp only [List.length_cons, List.length_nil]; omega)
                          (by simp only [List.length_cons, List.length_nil]; omega)]
                    · rw [if_neg hc, if_neg hc]
                  · rw [if_neg hb3, if_neg hb3]
            | cons b3 bs3 =>
              simp only [List.length_cons] at h1 h2
              simp only [decGo]
              by_cases hb1 : b < 0x80
              · rw [if_pos hb1, if_pos hb1,
                  ih (b1 :: b2 :: b3 :: bs3) g
                    (by simp only [List.length_cons]; omega)
                    (by simp only [List.length_cons]; omega)]
              · rw [if_neg hb1, if_neg hb1]
                by_cases hb2 : b < 0xC2
                · rw [if_pos hb2, if_pos hb2]
                · rw [if_neg hb2, if_neg hb2]
                  by_cases hb3 : b ≤ 0xDF
                  · rw [if_pos hb3, if_pos hb3]
                    by_cases hc : 0x80 ≤ b1 ∧ b1 ≤ 0xBF
                    · rw [if_pos hc, if_pos hc,
                        ih (b2 :: b3 :: bs3) g
                          (by simp only [List.length_cons]; omega)
                          (by simp only [List.length_cons]; omega)]
                    · rw [if_neg hc, if_neg hc]
                  · rw [if_neg hb3, if_neg hb3]
                    by_cases hb4 : b ≤ 0xEF
                    · rw [if_pos hb4, if_pos hb4]
                      by_cases hc : (if b = 0xE0 then 0xA0 ≤ b1 ∧ b1 ≤ 0xBF
                          else if b = 0xED then 0x80 ≤ b1 ∧ b1 ≤ 0x9F
                          else 0x80 ≤ b1 ∧ b1 ≤ 0xBF) ∧ 0x80 ≤ b2 ∧ b2 ≤ 0xBF
                      · rw [if_pos hc, if_pos hc,
                          ih (b3 :: bs3) g
                            (by simp only [List.length_cons]; omega)
                            (by simp only [List.length_cons]; omega)]
                      · rw [if_neg hc, if_neg hc]
                    · rw [if_neg hb4, if_neg hb4]
                      by_cases hb5 : b ≤ 0xF4
                      · rw [if_pos hb5, if_pos hb5]
                        by_cases hc : (if b = 0xF0 then 0x90 ≤ b1 ∧ b1 ≤ 0xBF
                            else if b = 0xF4 then 0x80 ≤ b1 ∧ b1 ≤ 0x8F
                            else 0x80 ≤ b1 ∧ b1 ≤ 0xBF) ∧ 0x80 ≤ b2 ∧ b2 ≤ 0xBF ∧
                            0x80 ≤ b3 ∧ b3 ≤ 0xBF
                        · rw [if_pos hc, if_pos hc, ih bs3 g (by omega) (by omega)]
                        · rw [if_neg hc, if_neg hc]
                      · rw [if_neg hb5, if_neg hb5]

theorem utf8Decode_encodeChar_append (c : Char) (r : List Nat) :
    utf8Decode (encodeChar c ++ r) = (utf8Decode r).map (fun t => c :: t) := by
  have hv : c.toNat < 0xD800 ∨ (0xDFFF < c.toNat ∧ c.toNat < 0x110000) := c.valid
  by_cases h1 : c.toNat < 0x80
  · have he : encodeChar c = [c.toNat] := by simp [encodeChar, h1]
    rw [he]
    show decGo ([c.toNat] ++ r).length ([c.toNat] ++ r) = _
    simp only [List.cons_append, List.nil_append, List.length_cons]
    simp only [decGo]
    rw [if_pos h1]
    simp only [Char.ofNat_toNat]
    rfl
  · by_cases h2 : c.toNat < 0x800
    · have he : encodeChar c = [0xC0 + c.toNat / 64, 0x80 + c.toNat % 64] := by
        simp [encodeChar, h1, h2]
      rw [he]
      show decGo _ _ = _
      simp only [List.cons_append, List.nil_append, List.length_cons]
      simp only [decGo]
      rw [if_neg (by omega), if_neg (by omega), if_pos (by omega), if_pos (by omega)]
      rw [decGo_fuel (r.length + 1) r r.length (by omega) (Nat.le_refl _)]
      have hcp : (0xC0 + c.toNat / 64 - 0xC0) * 64 + (0x80 + c.toNat % 64 - 0x80) = c.toNat := by
        omega
      simp only [hcp, Char.ofNat_toNat]
      rfl
    · by_cases h3 : c.toNat < 0x10000
      · have he : encodeChar c =
            [0xE0 + c.toNat / 4096, 0x80 + c.toNat / 64 % 64, 0x80 + c.toNat % 64] := by
          simp [encodeChar, h1, h2, h3]
        rw [he]
        show decGo _ _ = _
        simp only [List.cons_append, List.nil_append, List.length_cons]
        simp only [decGo]
        rw [if_neg (by omega), if_neg (by omega), if_neg (by omega), if_pos (by omega)]
        rw [if_pos (by refine ⟨?_, by omega, by omega⟩; split <;> first | omega | (split <;> omega))]
        rw [decGo_fuel (r.length + 1 + 1) r r.length (by omega) (Nat.le_refl _)]
        have e1 : c.toNat / 64 / 64 = c.toNat / 4096 := by
          rw [Nat.div_div_eq_div_mul]
        have hcp : (0xE0 + c.toNat / 4096 - 0xE0) * 4096 +
            (0x80 + c.toNat / 64 % 64 - 0x80) * 64 + (0x80 + c.toNat % 64 - 0x80) =
            c.toNat := by omega
        simp only [hcp, Char.ofNat_toNat]
        rfl
      · have he : encodeChar c =
            [0xF0 + c.toNat / 262144, 0x80 + c.toNat / 4096 % 64,
              0x80 + c.toNat / 64 % 64, 0x80 + c.toNat % 64] := by
          simp [encodeChar, h1, h2, h3]
        rw [he]
        show decGo _ _ = _
        simp only [List.cons_append, List.nil_append, List.length_cons]
        simp only [decGo]
        rw [if_neg (by omega), if_neg (by omega), if_neg (by omega), if_neg (by omega),
          if_pos (by omega)]
        rw [if_pos (by refine ⟨?_, by omega, by omega, by omega⟩; split <;> first | omega | (split <;> omega))]
        rw [decGo_fuel (r.length + 1 + 1 + 1) r r.length (by omega) (Nat.le_refl _)]
        have e1 : c.toNat / 64 / 64 = c.toNat / 4096 := by
          rw [Nat.div_div_eq_div_mul]
        have e2 : c.toNat / 4096 / 64 = c.toNat / 262144 := by
          rw [Nat.div_div_eq_div_mul]
        have hcp : (0xF0 + c.toNat / 262144 - 0xF0) * 262144 +
            (0x80 + c.toNat / 4096 % 64 - 0x80) * 4096 +
            (0x80 + c.toNat / 64 % 64 - 0x80) * 64 + (0x80 + c.toNat % 64 - 0x80) =
            c.toNat := by omega
        simp only [hcp, Char.ofNat_toNat]
        rfl

/-- Writing a Python string with UTF-8 and reading it back with strict UTF-8
    decoding recovers the string: decoding inverts encoding. -/
theorem utf8Decode_encode (t : List Char) : utf8Decode (utf8Encode t) = some t := by
  induction t with
  | nil => rfl
  | cons c r ih =>
    show utf8Decode (encodeChar c ++ utf8Encode r) = _
    rw [utf8Decode_encodeChar_append, ih]
    rfl

theorem not_infix_of_containsSeq_eq_false (pat : List Char) :
    ∀ (l : List Char), containsSeq pat l = false → ¬ pat <:+: l := by
  intro l
  induction l with
  | nil =>
    intro h hin
    rcases List.infix_nil.mp hin with rfl
    simp [containsSeq] at h
  | cons c rest ih =>
    intro h hin
    simp only [containsSeq, Bool.or_eq_false_iff] at h
    rcases List.infix_cons_iff.mp hin with hpre | hrest
    · rw [List.isPrefixOf_iff_prefix.mpr hpre] at h
      exact absurd h.1 (by simp)
    · exact ih h.2 hrest

/-- A replacement table none of whose patterns occurs in the text leaves the
    text unchanged. -/
theorem applyRepl_id (repl : List (List Char × List Char)) (t : List Char)
    (h : ∀ pr ∈ repl, containsSeq pr.1 t = false) : applyRepl repl t = t := by
  induction repl with
  | nil => rfl
  | cons pr rest ih =>
    have h1 : pyReplace pr.1 pr.2 t = t :=
      pyReplace_of_not_infix _ _ _
        (not_infix_of_containsSeq_eq_false _ _ (h pr (List.mem_cons_self pr rest)))
    show List.foldl _ t (pr :: rest) = t
    simp only [List.foldl]
    rw [h1]
    exact ih (fun q hq => h q (List.mem_cons_of_mem _ hq))

/-- On a token free file list, the substitution pass reports no changes and
    rewrites nothing. -/
theorem replacePass_tokenFree (repl : List (List Char × List Char)) (dryRun : Bool) :
    ∀ files, tokenFree repl files = true → replacePass repl dryRun files = ([], files) := by
  intro files
  induction files with
  | nil => intro h; rfl
  | cons e rest ih =>
    intro h
    obtain ⟨p, raw⟩ := e
    simp only [tokenFree, List.all_cons, Bool.and_eq_true] at h
    have hrest : replacePass repl dryRun rest = ([], rest) := ih h.2
    simp only [replacePass, hrest]
    by_cases ht : isTextFile p
    · rw [if_pos ht]
      by_cases hz : (0 : Nat) ∈ raw
      · rw [if_pos hz]
      · rw [if_neg hz]
        cases hdec : utf8Decode raw with
        | none => rfl
        | some t =>
          have hall : ∀ pr ∈ repl, containsSeq pr.1 t = false := by
            have hh := h.1
            simp only [hdec, List.all_eq_true] at hh
            intro pr hpr
            have := hh pr hpr
            simpa using this
          have hid : applyRepl repl t = t := applyRepl_id repl t hall
          simp only [hid]
          rw [if_neg (by simp)]
    · rw [if_neg ht]

/-- The changed file list reported by the substitution pass does not depend
    on the dry run flag. -/
theorem replacePass_changed_eq (repl : List (List Char × List Char)) (d dx : Bool) :
    ∀ files, (replacePass repl d files).1 = (replacePass repl dx files).1 := by
  intro files
  induction files with
  | nil => rfl
  | cons e rest ih =>
    obtain ⟨p, raw⟩ := e
    simp only [replacePass]
    by_cases ht : isTextFile p
    · rw [if_pos ht, if_pos ht]
      by_cases hz : (0 : Nat) ∈ raw
      · rw [if_pos hz, if_pos hz]; simpa using ih
      · rw [if_neg hz, if_neg hz]
        cases hdec : utf8Decode raw with
        | none => simpa using ih
        | some t =>
          simp only []
          by_cases hne : applyRepl repl t ≠ t
          · rw [if_pos hne, if_pos hne]
            simpa using ih
          · rw [if_neg hne, if_neg hne]; simpa using ih
    · rw [if_neg ht, if_neg ht]; simpa using ih

/-- A dry run of the substitution pass leaves every file untouched. -/
theorem replacePass_dry_files (repl : List (List Char × List Char)) :
    ∀ files, (replacePass repl true files).2 = files := by
  intro files
  induction files with
  | nil => rfl
  | cons e rest ih =>
    obtain ⟨p, raw⟩ := e
    simp only [replacePass]
    by_cases ht : isTextFile p
    · rw [if_pos ht]
      by_cases hz : (0 : Nat) ∈ raw
      · rw [if_pos hz]; simpa using ih
      · rw [if_neg hz]
        cases hdec : utf8Decode raw with
        | none => simpa using ih
        | some t =>
          simp only []
          by_cases hne : applyRepl repl t ≠ t
          · rw [if_pos hne]
            simp only [if_true]
            simpa using ih
          · rw [if_neg hne]; simpa using ih
    · rw [if_neg ht]; simpa using ih

/-- The substitution pass never creates or deletes files. -/
theorem replacePass_keys (repl : List (List Char × List Char)) (d : Bool) :
    ∀ files (q : String),
      (lookupFile q (replacePass repl d files).2).isSome = (lookupFile q files).isSome := by
  intro files
  induction files with
  | nil => intro q; rfl
  | cons e rest ih =>
    intro q
    obtain ⟨p, raw⟩ := e
    simp only [replacePass]
    by_cases ht : isTextFile p
    · rw [if_pos ht]
      by_cases hz : (0 : Nat) ∈ raw
      · rw [if_pos hz]
        simp only [lookupFile]
        by_cases hpq : p = q
        · rw [if_pos hpq, if_pos hpq]
        · rw [if_neg hpq, if_neg hpq]; exact ih q
      · rw [if_neg hz]
        cases hdec : utf8Decode raw with
        | none =>
          simp only [lookupFile]
          by_cases hpq : p = q
          · rw [if_pos hpq, if_pos hpq]
          · rw [if_neg hpq, if_neg hpq]; exact ih q
        | some t =>
          simp only []
          by_cases hne : applyRepl repl t ≠ t
          · rw [if_pos hne]
            simp only [lookupFile]
            by_cases hpq : p = q
            · rw [if_pos hpq, if_pos hpq]; rfl
            · rw [if_neg hpq, if_neg hpq]; exact ih q
          · rw [if_neg hne]
            simp only [lookupFile]
            by_cases hpq : p = q
            · rw [if_pos hpq, if_pos hpq]
            · rw [if_neg hpq, if_neg hpq]; exact ih q
    · rw [if_neg ht]
      simp only [lookupFile]
      by_cases hpq : p = q
      · rw [if_pos hpq, if_pos hpq]
      · rw [if_neg hpq, if_neg hpq]; exact ih q

/-- What the substitution pass does to the content found at any single path:
    either the lookup is unchanged, or the path is on the changed list, its
    original content decodes to a text the replacement table rewrites, and
    the new lookup holds the original (dry run) or rewritten (real run)
    content. -/
theorem replacePass_lookup (repl : List (List Char × List Char)) (d : Bool) :
    ∀ files (q : String),
      lookupFile q (replacePass repl d files).2 = lookupFile q files ∨
      (q ∈ (replacePass repl d files).1 ∧ ∃ raw t,
        lookupFile q files = some raw ∧ utf8Decode raw = some t ∧ applyRepl repl t ≠ t ∧
        lookupFile q (replacePass repl d files).2 =
          some (if d then raw else utf8Encode (applyRepl repl t))) := by
  intro files
  induction files with
  | nil => intro q; left; rfl
  | cons e rest ih =>
    intro q
    obtain ⟨p, raw⟩ := e
    simp only [replacePass]
    by_cases ht : isTextFile p
    · rw [if_pos ht]
      by_cases hz : (0 : Nat) ∈ raw
      · rw [if_pos hz]
        simp only [lookupFile]
        by_cases hpq : p = q
        · rw [if_pos hpq, if_pos hpq]; left; rfl
        · rw [if_neg hpq, if_neg hpq]; exact ih q
      · rw [if_neg hz]
        cases hdec : utf8Decode raw with
        | none =>
          simp only [lookupFile]
          by_cases hpq : p = q
          · rw [if_pos hpq, if_pos hpq]; left; rfl
          · rw [if_neg hpq, if_neg hpq]; exact ih q
        | some t =>
          simp only []
          by_cases hne : applyRepl repl t ≠ t
          · rw [if_pos hne]
            simp only [lookupFile]
            by_cases hpq : p = q
            · rw [if_pos hpq, if_pos hpq]
              right
              refine ⟨List.mem_cons.mpr (Or.inl hpq.symm), raw, t, rfl, hdec, hne, rfl⟩
            · rw [if_neg hpq, if_neg hpq]
              rcases ih q with hl | ⟨hm, hrest⟩
              · left; exact hl
              · right; exact ⟨List.mem_cons_of_mem _ hm, hrest⟩
          · rw [if_neg hne]
            simp only [lookupFile]
            by_cases hpq : p = q
            · rw [if_pos hpq, if_pos hpq]; left; rfl
            · rw [if_neg hpq, if_neg hpq]; exact ih q
    · rw [if_neg ht]
      simp only [lookupFile]
      by_cases hpq : p = q
      · rw [if_pos hpq, if_pos hpq]; left; rfl
      · rw [if_neg hpq, if_neg hpq]; exact ih q

theorem lookupFile_writeFile_self (p : String) (v : List Nat) :
    ∀ l, lookupFile p (writeFile p v l) = some v := by
  intro l
  induction l with
  | nil => simp [writeFile, lookupFile]
  | cons e rest ih =>
    obtain ⟨q, w⟩ := e
    simp only [writeFile]
    by_cases hq : q = p
    · rw [if_pos hq]; simp [lookupFile]
    · rw [if_neg hq]
      simp only [lookupFile]
      rw [if_neg hq]
      exact ih

theorem lookupFile_writeFile_other (p q : String) (v : List Nat) (hpq : p ≠ q) :
    ∀ l, lookupFile q (writeFile p v l) = lookupFile q l := by
  intro l
  induction l with
  | nil => simp [writeFile, lookupFile, if_neg hpq]
  | cons e rest ih =>
    obtain ⟨k, w⟩ := e
    simp only [writeFile]
    by_cases hk : k = p
    · rw [if_pos hk]
      simp only [lookupFile]
      rw [if_neg hpq, if_neg (hk ▸ hpq : k ≠ q)]
    · rw [if_neg hk]
      simp only [lookupFile]
      by_cases hkq : k = q
      · rw [if_pos hkq, if_pos hkq]
      · rw [if_neg hkq, if_neg hkq]
        exact ih

theorem lookupFile_removeFile (p : String) :
    ∀ l, lookupFile p (removeFile p l) = none := by
  intro l
  induction l with
  | nil => rfl
  | cons e rest ih =>
    obtain ⟨q, w⟩ := e
    simp only [removeFile]
    by_cases hq : q = p
    · rw [if_pos hq]; exact ih
    · rw [if_neg hq]
      simp only [lookupFile]
      rw [if_neg hq]
      exact ih

/-- Renaming a directory does not disturb the lookup of a path that neither
    the rename source nor any renamed key can produce. -/
theorem lookupFile_remap (o n : String) (p : String)
    (h1 : remapKey o n p = p) (h2 : ∀ k : String, remapKey o n k = p → k = p) :
    ∀ files : List (String × List Nat),
      lookupFile p (files.map (fun e => (remapKey o n e.1, e.2))) = lookupFile p files := by
  intro files
  induction files with
  | nil => rfl
  | cons e rest ih =>
    obtain ⟨k, v⟩ := e
    simp only [List.map_cons, lookupFile]
    by_cases hk : k = p
    · subst hk
      rw [h1]
      simp
    · have hneq : remapKey o n k ≠ p := fun hc => hk (h2 k hc)
      rw [if_neg hneq, if_neg hk]
      exact ih

theorem src_append_data (x : String) :
    ("src/" ++ x).data = 's' :: 'r' :: 'c' :: '/' :: x.data := by
  simp [String.data_append]

theorem src_append_ne (x q : String) (hq : q.data.head? ≠ some 's') :
    ("src/" ++ x) ≠ q := by
  intro h
  apply hq
  rw [← h, src_append_data]
  rfl

theorem src_mk_ne (x : String) (tail : List Char) (q : String) (hq : q.data.head? ≠ some 's') :
    String.mk (("src/" ++ x).data ++ tail) ≠ q := by
  intro h
  apply hq
  rw [← h]
  show (("src/" ++ x).data ++ tail).head? = some 's'
  rw [src_append_data]
  rfl

/-- Keys that do not start with the renamed source prefix and do not start
    with the letter s (such as pyproject.toml and plugin.json) are untouched
    by the package directory rename, and nothing is renamed onto them. -/
theorem remapKey_fixed (imp q : String) (hq : q.data.head? ≠ some 's')
    (hqp : ¬ ((("src/" ++ TEMPLATE_IMPORT_NAME).data ++ ['/']) <+: q.data)) :
    remapKey ("src/" ++ TEMPLATE_IMPORT_NAME) ("src/" ++ imp) q = q ∧
    ∀ k, remapKey ("src/" ++ TEMPLATE_IMPORT_NAME) ("src/" ++ imp) k = q → k = q := by
  constructor
  · rw [remapKey,
      if_neg (fun hc => (src_append_ne TEMPLATE_IMPORT_NAME q hq) hc.symm)]
    rw [if_neg (fun hc => hqp (List.isPrefixOf_iff_prefix.mp hc))]
  · intro k hk
    by_cases hko : k = "src/" ++ TEMPLATE_IMPORT_NAME
    · rw [remapKey, if_pos hko] at hk
      exact absurd hk (src_append_ne imp q hq)
    · by_cases hkp : (("src/" ++ TEMPLATE_IMPORT_NAME).data ++ ['/']).isPrefixOf k.data
      · rw [remapKey, if_neg hko, if_pos hkp] at hk
        exact absurd hk (src_mk_ne imp _ q hq)
      · rw [remapKey, if_neg hko, if_neg hkp] at hk
        exact hk

theorem fsRead_renameDir_fixed (fs : FS) (imp q : String) (hq : q.data.head? ≠ some 's')
    (hqp : ¬ ((("src/" ++ TEMPLATE_IMPORT_NAME).data ++ ['/']) <+: q.data)) :
    fsRead (renameDir fs ("src/" ++ TEMPLATE_IMPORT_NAME) ("src/" ++ imp)) q = fsRead fs q := by
  obtain ⟨h1, h2⟩ := remapKey_fixed imp q hq hqp
  exact lookupFile_remap _ _ q h1 h2 fs.files

theorem mem_pushIfAbsent (c : List String) (p : String) : p ∈ pushIfAbsent c p := by
  unfold pushIfAbsent
  by_cases hc : c.contains p
  · rw [if_pos hc]
    simpa using hc
  · rw [if_neg hc]
    simp

theorem pushIfAbsent_of_mem (c : List String) (p : String) (h : p ∈ c) :
    pushIfAbsent c p = c := by
  unfold pushIfAbsent
  rw [if_pos (by simpa using h)]

theorem subset_pushIfAbsent (c : List String) (p : String) : c ⊆ pushIfAbsent c p := by
  unfold pushIfAbsent
  by_cases hc : c.contains p
  · rw [if_pos hc]
    exact fun x hx => hx
  · rw [if_neg hc]
    exact List.subset_append_left c [p]

theorem patchPluginJson_dry_fs (plan : RenamePlan) (fs : FS) (c : List String) :
    (patchPluginJson plan true fs c).1 = fs := by
  unfold patchPluginJson
  simp only [not_true, and_false, if_false]
  cases fsRead fs pluginJsonPath with
  | none => rfl
  | some raw =>
    simp only []
    by_cases htr : truthy plan.display_name
    · rw [if_pos htr]
      cases utf8Decode raw with
      | none => rfl
      | some t => rfl
    · rw [if_neg htr]

theorem patchPyproject_dry_fs (plan : RenamePlan) (fs : FS) (c : List String) :
    (patchPyproject plan true fs c).1 = fs := by
  unfold patchPyproject
  simp only [not_true, and_false, if_false]
  cases fsRead fs pyprojectPath with
  | none => rfl
  | some raw =>
    simp only []
    cases utf8Decode raw with
    | none => rfl
    | some t =>
      simp only []
      by_cases htr : truthy plan.description
      · rw [if_pos htr]
      · rw [if_neg htr]

theorem patchPluginJson_eq (plan : RenamePlan) (D R : FS) (c0 c : List String)
    (hsub : c0 ⊆ c)
    (hInv : fsRead R pluginJsonPath = fsRead D pluginJsonPath ∨
      (pluginJsonPath ∈ c0 ∧ (∃ raw t, fsRead D pluginJsonPath = some raw ∧
        utf8Decode raw = some t) ∧ ∃ u, fsRead R pluginJsonPath = some (utf8Encode u))) :
    (patchPluginJson plan true D c).2 = (patchPluginJson plan false R c).2 := by
  rcases hInv with hL | ⟨hm, ⟨raw, t, hDr, hdec⟩, ⟨u, hR⟩⟩
  · unfold patchPluginJson
    rw [hL]
    cases hD : fsRead D pluginJsonPath with
    | none => rfl
    | some raw =>
      simp only []
      by_cases htr : truthy plan.display_name
      · rw [if_pos htr, if_pos htr]
        cases hdec : utf8Decode raw with
        | none => rfl
        | some t => rfl
      · rw [if_neg htr, if_neg htr]
  · unfold patchPluginJson
    rw [hDr, hR]
    simp only []
    by_cases htr : truthy plan.display_name
    · rw [if_pos htr, if_pos htr]
      rw [hdec, utf8Decode_encode u]
      simp only []
      have hps : pushIfAbsent c pluginJsonPath = c := pushIfAbsent_of_mem _ _ (hsub hm)
      simp only [hps, ite_self]
    · rw [if_neg htr, if_neg htr]

theorem fsRead_fsWrite_self (g : FS) (p : String) (v : List Nat) :
    fsRead (fsWrite g p v) p = some v :=
  lookupFile_writeFile_self p v g.files

theorem patchPyproject_eq (plan : RenamePlan) (D R : FS) (c : List String)
    (hInv : fsRead R pyprojectPath = fsRead D pyprojectPath ∨
      (pyprojectPath ∈ c ∧ (∃ raw t, fsRead D pyprojectPath = some raw ∧
        utf8Decode raw = some t) ∧ ∃ u, fsRead R pyprojectPath = some (utf8Encode u))) :
    (patchPyproject plan true D c).2 = (patchPyproject plan false R c).2 := by
  have hcf : (¬ ((false : Bool) = true)) = True := by simp
  rcases hInv with hL | ⟨hm, ⟨raw, t, hDr, hdec⟩, ⟨u, hR⟩⟩
  · unfold patchPyproject
    rw [hL]
    cases hD : fsRead D pyprojectPath with
    | none => rfl
    | some raw =>
      simp only []
      cases hdec : utf8Decode raw with
      | none => rfl
      | some t =>
        simp only []
        simp only [not_true, and_false, if_false, hcf, and_true]
        by_cases htr : truthy plan.description
        · rw [if_pos htr, if_pos htr]
          by_cases hne : entryPointPatch plan.imp_name plan.plugin_id t ≠ t
          · simp only [if_pos hne]
            rw [fsRead_fsWrite_self]
            simp only []
            rw [utf8Decode_encode]
            simp only []
            rw [hD]
            simp only []
            rw [hdec]
            simp only []
            have hpp : pushIfAbsent (pushIfAbsent c pyprojectPath) pyprojectPath =
                pushIfAbsent c pyprojectPath :=
              pushIfAbsent_of_mem _ _ (mem_pushIfAbsent c pyprojectPath)
            simp only [hpp, ite_self]
          · simp only [if_neg hne]
            rw [hL, hD]
            simp only []
            rw [hdec]
        · rw [if_neg htr, if_neg htr]
  · unfold patchPyproject
    rw [hDr, hR]
    simp only []
    rw [hdec, utf8Decode_encode u]
    simp only []
    simp only [not_true, and_false, if_false, hcf, and_true]
    have hps : pushIfAbsent c pyprojectPath = c := pushIfAbsent_of_mem _ _ hm
    simp only [hps, ite_self]
    by_cases htr : truthy plan.description
    · rw [if_pos htr, if_pos htr]
      rw [hDr]
      simp only []
      rw [hdec]
      simp only []
      by_cases hne : entryPointPatch plan.imp_name plan.plugin_id u ≠ u
      · simp only [if_pos hne]
        rw [fsRead_fsWrite_self]
        simp only []
        rw [utf8Decode_encode]
      · simp only [if_neg hne]
        rw [hR]
        simp only []
        rw [utf8Decode_encode]
    · rw [if_neg htr, if_neg htr]

theorem patchPyproject_pj_read (plan : RenamePlan) (dry : Bool) (fs : FS) (c : List String) :
    fsRead (patchPyproject plan dry fs c).1 pluginJsonPath = fsRead fs pluginJsonPath := by
  have hw : ∀ (g : FS) (v : List Nat),
      fsRead (fsWrite g pyprojectPath v) pluginJsonPath = fsRead g pluginJsonPath :=
    fun g v => lookupFile_writeFile_other _ _ _ (by decide) g.files
  unfold patchPyproject
  cases hD : fsRead fs pyprojectPath with
  | none => rfl
  | some raw =>
    simp only []
    cases hdec : utf8Decode raw with
    | none => rfl
    | some t =>
      simp only []
      by_cases h1 : entryPointPatch plan.imp_name plan.plugin_id t ≠ t ∧ ¬ dry = true
      · rw [if_pos h1]
        by_cases htr : truthy plan.description
        · rw [if_pos htr]
          rw [fsRead_fsWrite_self]
          simp only []
          rw [utf8Decode_encode]
          simp only []
          by_cases h2 : descPatch (plan.description.getD "")
              (entryPointPatch plan.imp_name plan.plugin_id t) ≠
              entryPointPatch plan.imp_name plan.plugin_id t ∧ ¬ dry = true
          · rw [if_pos h2]
            simp only [hw]
          · rw [if_neg h2]
            simp only [hw]
        · rw [if_neg htr]
          simp only [hw]
      · rw [if_neg h1]
        by_cases htr : truthy plan.description
        · rw [if_pos htr]
          rw [hD]
          simp only []
          rw [hdec]
          simp only []
          by_cases h2 : descPatch (plan.description.getD "") t ≠ t ∧ ¬ dry = true
          · rw [if_pos h2]
            simp only [hw]
          · rw [if_neg h2]
        · rw [if_neg htr]

theorem patchPyproject_changed_shape (plan : RenamePlan) (dry : Bool) (fs : FS)
    (c : List String) :
    (patchPyproject plan dry fs c).2 = .ok c ∨
    (patchPyproject plan dry fs c).2 = .ok (pushIfAbsent c pyprojectPath) ∨
    (patchPyproject plan dry fs c).2 =
      .ok (pushIfAbsent (pushIfAbsent c pyprojectPath) pyprojectPath) ∨
    ∃ m, (patchPyproject plan dry fs c).2 = .error m := by
  unfold patchPyproject
  cases hD : fsRead fs pyprojectPath with
  | none => left; rfl
  | some raw =>
    simp only []
    cases hdec : utf8Decode raw with
    | none => right; right; right; exact ⟨_, rfl⟩
    | some t =>
      simp only []
      by_cases hne : entryPointPatch plan.imp_name plan.plugin_id t ≠ t
      · simp only [if_pos hne]
        by_cases htr : truthy plan.description
        · rw [if_pos htr]
          cases hre : fsRead (if entryPointPatch plan.imp_name plan.plugin_id t ≠ t ∧
              ¬ dry = true then
                fsWrite fs pyprojectPath
                  (utf8Encode (entryPointPatch plan.imp_name plan.plugin_id t))
              else fs) pyprojectPath with
          | none => right; right; right; exact ⟨_, rfl⟩
          | some raw2 =>
            simp only []
            cases hdec2 : utf8Decode raw2 with
            | none => right; right; right; exact ⟨_, rfl⟩
            | some t2 =>
              simp only []
              by_cases hne2 : descPatch (plan.description.getD "") t2 ≠ t2
              · rw [if_pos hne2]
                right; right; left; rfl
              · rw [if_neg hne2]
                right; left; rfl
        · rw [if_neg htr]
          right; left; rfl
      · simp only [if_neg hne]
        by_cases htr : truthy plan.description
        · rw [if_pos htr]
          cases hre : fsRead (if entryPointPatch plan.imp_name plan.plugin_id t ≠ t ∧
              ¬ dry = true then
                fsWrite fs pyprojectPath
                  (utf8Encode (entryPointPatch plan.imp_name plan.plugin_id t))
              else fs) pyprojectPath with
          | none => right; right; right; exact ⟨_, rfl⟩
          | some raw2 =>
            simp only []
            cases hdec2 : utf8Decode raw2 with
            | none => right; right; right; exact ⟨_, rfl⟩
            | some t2 =>
              simp only []
              by_cases hne2 : descPatch (plan.description.getD "") t2 ≠ t2
              · rw [if_pos hne2]
                right; left; rfl
              · rw [if_neg hne2]
                left; rfl
        · rw [if_neg htr]
          left; rfl

theorem patchPyproject_changed_sub (plan : RenamePlan) (dry : Bool) (fs : FS)
    (c ch : List String) (h : (patchPyproject plan dry fs c).2 = .ok ch) : c ⊆ ch := by
  rcases patchPyproject_changed_shape plan dry fs c with h0 | h0 | h0 | ⟨m, h0⟩ <;>
    rw [h0] at h
  · cases h
    exact fun x hx => hx
  · cases h
    exact subset_pushIfAbsent c pyprojectPath
  · cases h
    exact (subset_pushIfAbsent c pyprojectPath).trans
      (subset_pushIfAbsent (pushIfAbsent c pyprojectPath) pyprojectPath)
  · cases h

theorem patchPhase_eq (plan : RenamePlan) (D R : FS) (cR : List String)
    (hpyInv : fsRead R pyprojectPath = fsRead D pyprojectPath ∨
      (pyprojectPath ∈ cR ∧ (∃ raw t, fsRead D pyprojectPath = some raw ∧
        utf8Decode raw = some t) ∧ ∃ u, fsRead R pyprojectPath = some (utf8Encode u)))
    (hpjInv : fsRead R pluginJsonPath = fsRead D pluginJsonPath ∨
      (pluginJsonPath ∈ cR ∧ (∃ raw t, fsRead D pluginJsonPath = some raw ∧
        utf8Decode raw = some t) ∧ ∃ u, fsRead R pluginJsonPath = some (utf8Encode u))) :
    (patchPhase plan true D cR).fs = D ∧
    (patchPhase plan true D cR).outcome = (patchPhase plan false R cR).outcome := by
  have heq1 := patchPyproject_eq plan D R cR hpyInv
  have hdry1 := patchPyproject_dry_fs plan D cR
  have hpj1 := patchPyproject_pj_read plan false R cR
  have hsub0 := patchPyproject_changed_sub plan true D cR
  unfold patchPhase
  cases hpd : patchPyproject plan true D cR with
  | mk fs3D out3D =>
    cases hpr : patchPyproject plan false R cR with
    | mk fs3R out3R =>
      rw [hpd] at heq1 hdry1 hsub0
      rw [hpr] at heq1 hpj1
      dsimp only at heq1 hdry1 hpj1 hsub0
      rw [hdry1]
      cases out3D with
      | error m =>
        subst heq1
        exact ⟨rfl, rfl⟩
      | ok ch1 =>
        subst heq1
        simp only []
        have hsub : cR ⊆ ch1 := hsub0 ch1 rfl
        have hInv2 : fsRead fs3R pluginJsonPath = fsRead D pluginJsonPath ∨
            (pluginJsonPath ∈ cR ∧ (∃ raw t, fsRead D pluginJsonPath = some raw ∧
              utf8Decode raw = some t) ∧
              ∃ u, fsRead fs3R pluginJsonPath = some (utf8Encode u)) := by
          rcases hpjInv with hL | ⟨hm, hDr, ⟨u, hu⟩⟩
          · left; exact hpj1.trans hL
          · right; exact ⟨hm, hDr, ⟨u, hpj1.trans hu⟩⟩
        have heq2 := patchPluginJson_eq plan D fs3R cR ch1 hsub hInv2
        have hdry2 := patchPluginJson_dry_fs plan D ch1
        cases hq : patchPluginJson plan true D ch1 with
        | mk fs4D out4D =>
          cases hqr : patchPluginJson plan false fs3R ch1 with
          | mk fs4R out4R =>
            rw [hq] at heq2 hdry2
            rw [hqr] at heq2
            dsimp only at heq2 hdry2
            rw [hdry2]
            cases out4D with
            | error m =>
              subst heq2
              exact ⟨rfl, rfl⟩
            | ok ch2 =>
              subst heq2
              exact ⟨rfl, rfl⟩

theorem runInit_dry (plan : RenamePlan) (fs : FS) :
    (runInit plan true fs).fs = fs ∧
    (runInit plan true fs).outcome = (runInit plan false fs).outcome := by
  obtain ⟨files0, dirs0⟩ := fs
  unfold runInit
  cases hv : validate plan with
  | error m => exact ⟨rfl, rfl⟩
  | ok u =>
    simp only []
    set repl : List (List Char × List Char) :=
      [(TEMPLATE_IMPORT_NAME.data, plan.imp_name.data),
       (TEMPLATE_PACKAGE_NAME.data, plan.pkg_name.data)] with hrepl
    rw [replacePass_dry_files repl files0, replacePass_changed_eq repl true false files0]
    set passF : List (String × List Nat) := (replacePass repl false files0).2 with hpassF
    set cR : List String := (replacePass repl false files0).1 with hcR
    -- invariants between the dry state and the real state at the two patch paths
    have hinv : ∀ q : String,
        fsRead (⟨passF, dirs0⟩ : FS) q = fsRead (⟨files0, dirs0⟩ : FS) q ∨
        (q ∈ cR ∧ (∃ raw t, fsRead (⟨files0, dirs0⟩ : FS) q = some raw ∧
          utf8Decode raw = some t) ∧
          ∃ u2, fsRead (⟨passF, dirs0⟩ : FS) q = some (utf8Encode u2)) := by
      intro q
      rcases replacePass_lookup repl false files0 q with hL | ⟨hm, raw, t, h1, h2, h3, h4⟩
      · left; exact hL
      · right
        rw [if_neg (by simp)] at h4
        exact ⟨hm, ⟨raw, t, h1, h2⟩, ⟨applyRepl repl t, h4⟩⟩
    have hfinal : (patchPhase plan true ⟨files0, dirs0⟩ cR).fs = (⟨files0, dirs0⟩ : FS) ∧
        (patchPhase plan true ⟨files0, dirs0⟩ cR).outcome =
          (patchPhase plan false ⟨passF, dirs0⟩ cR).outcome :=
      patchPhase_eq plan ⟨files0, dirs0⟩ ⟨passF, dirs0⟩ cR (hinv pyprojectPath)
        (hinv pluginJsonPath)
    have hpfxpy : ¬ ((("src/" ++ TEMPLATE_IMPORT_NAME).data ++ ['/']) <+: pyprojectPath.data) :=
      fun hc => absurd (List.isPrefixOf_iff_prefix.mpr hc) (by decide)
    have hpfxpj : ¬ ((("src/" ++ TEMPLATE_IMPORT_NAME).data ++ ['/']) <+: pluginJsonPath.data) :=
      fun hc => absurd (List.isPrefixOf_iff_prefix.mpr hc) (by decide)
    have hrdpy := fsRead_renameDir_fixed ⟨passF, dirs0⟩ plan.imp_name pyprojectPath
      (by decide) hpfxpy
    have hrdpj := fsRead_renameDir_fixed ⟨passF, dirs0⟩ plan.imp_name pluginJsonPath
      (by decide) hpfxpj
    have hfinalR : (patchPhase plan true ⟨files0, dirs0⟩ cR).fs = (⟨files0, dirs0⟩ : FS) ∧
        (patchPhase plan true ⟨files0, dirs0⟩ cR).outcome =
          (patchPhase plan false
            (renameDir ⟨passF, dirs0⟩ ("src/" ++ TEMPLATE_IMPORT_NAME)
              ("src/" ++ plan.imp_name)) cR).outcome := by
      apply patchPhase_eq
      · rcases hinv pyprojectPath with hL | ⟨hm, hdr, ⟨u2, hu⟩⟩
        · left; exact hrdpy.trans hL
        · right; exact ⟨hm, hdr, ⟨u2, hrdpy.trans hu⟩⟩
      · rcases hinv pluginJsonPath with hL | ⟨hm, hdr, ⟨u2, hu⟩⟩
        · left; exact hrdpj.trans hL
        · right; exact ⟨hm, hdr, ⟨u2, hrdpj.trans hu⟩⟩
    have hde : ∀ dp : String,
        dirExists (⟨passF, dirs0⟩ : FS) dp = dirExists (⟨files0, dirs0⟩ : FS) dp := by
      intro dp
      unfold dirExists fsRead
      dsimp only
      rw [hpassF, replacePass_keys]
    have htt : ((true : Bool) = true) := rfl
    have hff : ¬ ((false : Bool) = true) := by simp
    unfold renamePackageDir
    simp only [hde]
    by_cases hOld : dirExists (⟨files0, dirs0⟩ : FS) ("src/" ++ TEMPLATE_IMPORT_NAME) = true
    · have hnOld : ¬ ¬ (dirExists (⟨files0, dirs0⟩ : FS)
          ("src/" ++ TEMPLATE_IMPORT_NAME) = true) := fun hn => hn hOld
      simp only [if_neg hnOld]
      by_cases hEq : ("src/" ++ TEMPLATE_IMPORT_NAME : String) = "src/" ++ plan.imp_name
      · simp only [if_pos hEq]
        exact hfinal
      · simp only [if_neg hEq]
        by_cases hNew : dirExists (⟨files0, dirs0⟩ : FS) ("src/" ++ plan.imp_name) = true
        · simp only [if_pos hNew]
          constructor <;> trivial
        · simp only [if_neg hNew, if_pos htt, if_neg hff]
          exact hfinalR
    · simp only [if_pos hOld]
      by_cases hNew : dirExists (⟨files0, dirs0⟩ : FS) ("src/" ++ plan.imp_name) = true
      · simp only [if_pos hNew]
        exact hfinal
      · simp only [if_neg hNew]
        constructor <;> trivial

theorem validate_ok_iff (plan : RenamePlan) :
    validate plan = .ok () ↔
      (importNameOk plan.imp_name = true ∧ packageNameOk plan.pkg_name = true ∧
        plan.plugin_id ≠ "" ∧ plan.plugin_id = plan.imp_name) := by
  unfold validate
  by_cases h1 : importNameOk plan.imp_name = true
  · rw [if_neg (fun hn => hn h1)]
    by_cases h2 : packageNameOk plan.pkg_name = true
    · rw [if_neg (fun hn => hn h2)]
      by_cases h3 : plan.plugin_id = ""
      · rw [if_pos h3]
        simp [h3]
      · rw [if_neg h3]
        by_cases h4 : plan.plugin_id = plan.imp_name
        · rw [if_neg (fun hn => hn h4)]
          simp [h1, h2, h3, h4]
          exact fun he => h3 (h4.trans he)
        · rw [if_pos h4]
          simp [h4]
    · rw [if_pos (by simpa using h2)]
      simp [h2]
  · rw [if_pos (by simpa using h1)]
    simp [h1]

/-- C1: a RenamePlan with an invalid import name, an invalid package name, an
    empty plugin id or a plugin id different from the import name makes
    init_plugin.py main abort through _validate with a SystemExit (non-zero
    exit status) before any file is rewritten, any directory renamed or any
    manifest or descriptor patched: the filesystem of the run result is the
    starting filesystem. -/
theorem C1_validate_blocks_mutation (plan : RenamePlan) (dryRun : Bool) (fs : FS)
    (h : importNameOk plan.imp_name = false ∨ packageNameOk plan.pkg_name = false ∨
      plan.plugin_id = "" ∨ plan.plugin_id ≠ plan.imp_name) :
    (runInit plan dryRun fs).fs = fs ∧ ∃ m, (runInit plan dryRun fs).outcome = .error m := by
  cases hv : validate plan with
  | error m =>
    unfold runInit
    rw [hv]
    exact ⟨rfl, ⟨m, rfl⟩⟩
  | ok u =>
    exfalso
    cases u
    rcases (validate_ok_iff plan).mp hv with ⟨h1, h2, h3, h4⟩
    rcases h with h | h | h | h
    · rw [h1] at h; cases h
    · rw [h2] at h; cases h
    · exact h3 h
    · exact h h4

theorem C1_witness :
    (runInit (RenamePlan.mk "rag2f_demo" "rag2f-demo" "other" none none) false
        ⟨[("README.md", asBytes "rag2f_plugin_template docs")], ["src"]⟩).fs =
      ⟨[("README.md", asBytes "rag2f_plugin_template docs")], ["src"]⟩ ∧
    ∃ m, (runInit (RenamePlan.mk "rag2f_demo" "rag2f-demo" "other" none none) false
        ⟨[("README.md", asBytes "rag2f_plugin_template docs")], ["src"]⟩).outcome = .error m :=
  C1_validate_blocks_mutation (RenamePlan.mk "rag2f_demo" "rag2f-demo" "other" none none) false
    ⟨[("README.md", asBytes "rag2f_plugin_template docs")], ["src"]⟩
    (Or.inr (Or.inr (Or.inr (by decide))))

/-- C4: with identical starting content, a dry run of init_plugin.py reports
    exactly the outcome of a real run (the same changed file list on success,
    the same fatal error otherwise) while mutating nothing: its final
    filesystem is the starting one. -/
theorem C4_dry_run_equiv (plan : RenamePlan) (fs : FS) :
    (runInit plan true fs).fs = fs ∧
    (runInit plan true fs).outcome = (runInit plan false fs).outcome :=
  runInit_dry plan fs

/-- C5: the package directory rename of init_plugin.py is a successful no-op
    when the destination exists and the source does not, it aborts fatally
    when source and destination both exist and are distinct, and it aborts
    fatally when neither exists; the source directory rename of the
    interactive script diverges in the last case: a missing source directory
    is logged and skipped (the function returns successfully and the run
    continues) whether or not the destination exists, and it raises
    FileExistsError exactly when the source is present together with a
    distinct existing destination. -/
theorem C5_rename_cases (fs : FS) (plan : RenamePlan) (dry : Bool) (snake : String) :
    (dirExists fs ("src/" ++ plan.imp_name) = true →
      dirExists fs ("src/" ++ TEMPLATE_IMPORT_NAME) = false →
      renamePackageDir fs plan dry = .ok fs) ∧
    (dirExists fs ("src/" ++ TEMPLATE_IMPORT_NAME) = true →
      dirExists fs ("src/" ++ plan.imp_name) = true →
      ("src/" ++ TEMPLATE_IMPORT_NAME : String) ≠ "src/" ++ plan.imp_name →
      ∃ m, renamePackageDir fs plan dry = .error m) ∧
    (dirExists fs ("src/" ++ TEMPLATE_IMPORT_NAME) = false →
      dirExists fs ("src/" ++ plan.imp_name) = false →
      ∃ m, renamePackageDir fs plan dry = .error m) ∧
    (dirExists fs ("src/" ++ TEMPLATE_IMPORT_NAME) = false →
      renameSrcDir fs snake = .ok fs) ∧
    (dirExists fs ("src/" ++ TEMPLATE_IMPORT_NAME) = true →
      dirExists fs ("src/" ++ snake) = true →
      ("src/" ++ TEMPLATE_IMPORT_NAME : String) ≠ "src/" ++ snake →
      ∃ m, renameSrcDir fs snake = .error m) := by
  refine ⟨?_, ?_, ?_, ?_, ?_⟩
  · intro hnew hold
    unfold renamePackageDir
    rw [if_pos (by simp [hold]), if_pos hnew]
  · intro hold hnew hne
    unfold renamePackageDir
    rw [if_neg (fun hn => hn hold), if_neg hne, if_pos hnew]
    exact ⟨_, rfl⟩
  · intro hold hnew
    unfold renamePackageDir
    rw [if_pos (by simp [hold]), if_neg (by simp [hnew])]
    exact ⟨_, rfl⟩
  · intro hold
    unfold renameSrcDir
    rw [if_pos (by simp [hold])]
  · intro hold hnew hne
    unfold renameSrcDir
    rw [if_neg (fun hn => hn hold), if_pos ⟨hnew, hne⟩]
    exact ⟨_, rfl⟩

theorem C5_witness :
    (renamePackageDir ⟨[], ["src", "src/rag2f_demo"]⟩
        (RenamePlan.mk "rag2f_demo" "rag2f-demo" "rag2f_demo" none none) false =
      .ok ⟨[], ["src", "src/rag2f_demo"]⟩) ∧
    (∃ m, renamePackageDir ⟨[], ["src", "src/rag2f_plugin_template", "src/rag2f_demo"]⟩
        (RenamePlan.mk "rag2f_demo" "rag2f-demo" "rag2f_demo" none none) false = .error m) ∧
    (∃ m, renamePackageDir ⟨[], ["src"]⟩
        (RenamePlan.mk "rag2f_demo" "rag2f-demo" "rag2f_demo" none none) false = .error m) ∧
    (renameSrcDir ⟨[], ["src"]⟩ "my_plugin" = .ok ⟨[], ["src"]⟩) ∧
    (∃ m, renameSrcDir ⟨[], ["src", "src/rag2f_plugin_template", "src/my_plugin"]⟩
        "my_plugin" = .error m) :=
  ⟨(C5_rename_cases ⟨[], ["src", "src/rag2f_demo"]⟩
      (RenamePlan.mk "rag2f_demo" "rag2f-demo" "rag2f_demo" none none) false "my_plugin").1
      (by decide) (by decide),
   (C5_rename_cases ⟨[], ["src", "src/rag2f_plugin_template", "src/rag2f_demo"]⟩
      (RenamePlan.mk "rag2f_demo" "rag2f-demo" "rag2f_demo" none none) false "my_plugin").2.1
      (by decide) (by decide) (by decide),
   (C5_rename_cases ⟨[], ["src"]⟩
      (RenamePlan.mk "rag2f_demo" "rag2f-demo" "rag2f_demo" none none) false "my_plugin").2.2.1
      (by decide) (by decide),
   (C5_rename_cases ⟨[], ["src"]⟩
      (RenamePlan.mk "rag2f_demo" "rag2f-demo" "rag2f_demo" none none) false "my_plugin").2.2.2.1
      (by decide),
   (C5_rename_cases ⟨[], ["src", "src/rag2f_plugin_template", "src/my_plugin"]⟩
      (RenamePlan.mk "rag2f_demo" "rag2f-demo" "rag2f_demo" none none) false "my_plugin").2.2.2.2
      (by decide) (by decide) (by decide)⟩

/-- C5 counterexample: when neither the template source directory nor the
    destination exists, rename_src_dir of the interactive script does NOT
    fail: it returns successfully with the filesystem unchanged, and a whole
    run completes with exit status 0. -/
theorem C5_counterexample :
    dirExists ⟨[("plugin.json", asBytes "x")], []⟩ ("src/" ++ TEMPLATE_IMPORT_NAME) = false ∧
    dirExists ⟨[("plugin.json", asBytes "x")], []⟩ "src/my_plugin" = false ∧
    renameSrcDir ⟨[("plugin.json", asBytes "x")], []⟩ "my_plugin" =
      .ok ⟨[("plugin.json", asBytes "x")], []⟩ ∧
    (runInteractive (fun _ r => .ok r) "My Plugin"
      ⟨[("plugin.json", asBytes "x")], []⟩).outcome = .ok 0 := by
  refine ⟨by decide, by decide, by decide, by decide⟩

theorem removePreCommitHook_read (g : FS) :
    fsRead (removePreCommitHook g) hookPath = none := by
  unfold removePreCommitHook
  by_cases hs : (fsRead g hookPath).isSome = true
  · rw [if_pos hs]
    exact lookupFile_removeFile hookPath g.files
  · rw [if_neg hs]
    exact Option.not_isSome_iff_eq_none.mp hs

/-- C8: on the interactive variant, an input plugin name that strips to the
    empty string makes normalize_plugin_name raise ValueError, which main
    catches: it prints the message and returns exit status 1 with no file
    replaced, no directory renamed and no descriptor updated (the filesystem
    of the run result is the starting one). -/
theorem C8_empty_name_fatal (jsonF : String → List Nat → Except String (List Nat))
    (raw : String) (fs : FS) (h : pyStrip raw.data = []) :
    runInteractive jsonF raw fs = ⟨fs, .ok 1⟩ := by
  unfold runInteractive normalizePluginName
  rw [h]
  rfl

theorem C8_witness :
    runInteractive (fun _ r => .ok r) "   " ⟨[("README.md", asBytes "hello")], []⟩ =
      ⟨⟨[("README.md", asBytes "hello")], []⟩, .ok 1⟩ :=
  C8_empty_name_fatal (fun _ r => .ok r) "   " ⟨[("README.md", asBytes "hello")], []⟩ (by decide)

/-- C9: any successful run (exit status 0) of the interactive variant ends
    with remove_pre_commit_hook, so afterwards the pre-commit hook file does
    not exist; the script has no dry-run flag, so no setting can keep the
    hook. -/
theorem C9_hook_removed (jsonF : String → List Nat → Except String (List Nat))
    (name : String) (fs : FS)
    (h : (runInteractive jsonF name fs).outcome = .ok 0) :
    fsRead (runInteractive jsonF name fs).fs hookPath = none := by
  unfold runInteractive at h ⊢
  cases hn : normalizePluginName name with
  | error m =>
    rw [hn] at h
    simp at h
  | ok tri =>
    obtain ⟨orig, snake, dash⟩ := tri
    rw [hn] at h
    simp only [] at h ⊢
    cases hr : renameSrcDir
        ⟨applyReplaceTo isGithubFile snake dash
          (applyReplaceTo isRootFile snake dash fs.files), fs.dirs⟩ snake with
    | error m =>
      rw [hr] at h
      simp at h
    | ok fs3 =>
      rw [hr] at h
      simp only [] at h ⊢
      cases hu : updatePluginJson jsonF fs3 orig with
      | error m =>
        rw [hu] at h
        simp at h
      | ok fs4 =>
        simp only [] at h ⊢
        exact removePreCommitHook_read fs4

theorem C9_witness :
    fsRead (runInteractive (fun _ r => .ok r) "My Plugin"
        ⟨[("plugin.json", asBytes "x"), (".git/hooks/pre-commit", asBytes "y")], []⟩).fs
      hookPath = none :=
  C9_hook_removed (fun _ r => .ok r) "My Plugin"
    ⟨[("plugin.json", asBytes "x"), (".git/hooks/pre-commit", asBytes "y")], []⟩
    (by decide)

/-- C10: after set_plugin_id x, get_plugin_id returns x in the same context
    without raising and without consulting any rag2f argument (the result is
    the same for every such argument); and get_plugin_id raises RuntimeError
    exactly when no plugin id is set in the context and either no rag2f
    instance is provided or computing the id from the provided instance
    fails. -/
theorem C10_context_roundtrip :
    (∀ (x : String) (ctx : Option String) (r : Option Rag2f),
      get_plugin_id r (set_plugin_id x ctx) = .ok (x, set_plugin_id x ctx)) ∧
    (∀ (r : Option Rag2f) (ctx : Option String),
      (∃ m, get_plugin_id r ctx = .error m) ↔
        (ctx = none ∧ (r = none ∨ ∃ rr e, r = some rr ∧ rr.selfPluginId = .error e))) := by
  constructor
  · intro x ctx r
    rfl
  · intro r ctx
    cases ctx with
    | some pid =>
      constructor
      · rintro ⟨m, hm⟩
        cases hm
      · rintro ⟨hc, -⟩
        cases hc
    | none =>
      cases r with
      | none =>
        constructor
        · intro _
          exact ⟨rfl, Or.inl rfl⟩
        · intro _
          exact ⟨_, rfl⟩
      | some rr =>
        cases hs : rr.selfPluginId with
        | ok pid =>
          constructor
          · rintro ⟨m, hm⟩
            unfold get_plugin_id at hm
            simp only [] at hm
            rw [hs] at hm
            cases hm
          · rintro ⟨-, h | ⟨rr2, e, hr2, he⟩⟩
            · cases h
            · cases hr2
              rw [hs] at he
              cases he
        | error e =>
          constructor
          · intro _
            exact ⟨rfl, Or.inr ⟨rr, e, rfl, hs⟩⟩
          · intro _
            refine ⟨"Failed to compute plugin_id from rag2f.morpheus.self_plugin_id()", ?_⟩
            unfold get_plugin_id
            simp only []
            rw [hs]

/-- C2: the substitution pass is idempotent only on outputs that are free of
    both template tokens; under that hypothesis a second pass (with either
    dry_run setting) reports an empty changed-file list and leaves every file
    unchanged. -/
theorem C2_second_pass_empty (repl : List (List Char × List Char)) (dryRun : Bool)
    (files : List (String × List Nat))
    (h : tokenFree repl ((replacePass repl false files).2) = true) :
    (replacePass repl dryRun ((replacePass repl false files).2)).1 = [] := by
  rw [replacePass_tokenFree repl dryRun _ h]

theorem C2_witness :
    tokenFree [(TEMPLATE_IMPORT_NAME.data, "foo".data), (TEMPLATE_PACKAGE_NAME.data, "bar".data)]
        ((replacePass [(TEMPLATE_IMPORT_NAME.data, "foo".data),
            (TEMPLATE_PACKAGE_NAME.data, "bar".data)] false
          [("a.py", asBytes "rag2f_plugin_template")]).2) = true ∧
    (replacePass [(TEMPLATE_IMPORT_NAME.data, "foo".data),
        (TEMPLATE_PACKAGE_NAME.data, "bar".data)] true
      ((replacePass [(TEMPLATE_IMPORT_NAME.data, "foo".data),
          (TEMPLATE_PACKAGE_NAME.data, "bar".data)] false
        [("a.py", asBytes "rag2f_plugin_template")]).2)).1 = [] :=
  ⟨by decide,
   C2_second_pass_empty
     [(TEMPLATE_IMPORT_NAME.data, "foo".data), (TEMPLATE_PACKAGE_NAME.data, "bar".data)] true
     [("a.py", asBytes "rag2f_plugin_template")] (by decide)⟩

/-- C2 counterexample: with the valid plan whose import name is
    rag2f_plugin_template2, a file containing the template import name is
    changed again by a second pass, because the first replacement still
    contains the template token as a prefix. -/
theorem C2_counterexample :
    validate ⟨"rag2f_plugin_template2", "x", "rag2f_plugin_template2", none, none⟩ = .ok () ∧
    (replacePass
        [(TEMPLATE_IMPORT_NAME.data, "rag2f_plugin_template2".data),
         (TEMPLATE_PACKAGE_NAME.data, "x".data)] false
        ((replacePass
          [(TEMPLATE_IMPORT_NAME.data, "rag2f_plugin_template2".data),
           (TEMPLATE_PACKAGE_NAME.data, "x".data)] false
          [("a.py", asBytes "rag2f_plugin_template")]).2)).1 ≠ [] := by
  constructor
  · decide
  · decide

theorem replacePass_changed_keys (repl : List (List Char × List Char)) (d : Bool) :
    ∀ files, (replacePass repl d files).1 ⊆ files.map Prod.fst := by
  intro files
  induction files with
  | nil => intro x hx; cases hx
  | cons e rest ih =>
    intro x hx
    obtain ⟨p, raw⟩ := e
    simp only [replacePass] at hx
    simp only [List.map_cons, List.mem_cons]
    by_cases ht : isTextFile p
    · rw [if_pos ht] at hx
      by_cases hz : (0 : Nat) ∈ raw
      · rw [if_pos hz] at hx
        exact Or.inr (ih hx)
      · rw [if_neg hz] at hx
        cases hdec : utf8Decode raw with
        | none =>
          rw [hdec] at hx
          exact Or.inr (ih hx)
        | some t =>
          rw [hdec] at hx
          simp only [] at hx
          by_cases hne : applyRepl repl t ≠ t
          · rw [if_pos hne] at hx
            cases hx with
            | head => exact Or.inl rfl
            | tail _ hx2 => exact Or.inr (ih hx2)
          · rw [if_neg hne] at hx
            exact Or.inr (ih hx)
    · rw [if_neg ht] at hx
      exact Or.inr (ih hx)

theorem replacePass_skip (repl : List (List Char × List Char)) (d : Bool) :
    ∀ files (p : String) (raw : List Nat), (files.map Prod.fst).Nodup →
      lookupFile p files = some raw → (0 ∈ raw ∨ utf8Decode raw = none) →
      lookupFile p (replacePass repl d files).2 = some raw ∧
      p ∉ (replacePass repl d files).1 := by
  intro files
  induction files with
  | nil => intro p raw hnd hl hskip; cases hl
  | cons e rest ih =>
    intro p raw hnd hl hskip
    obtain ⟨q, rawq⟩ := e
    simp only [List.map_cons, List.nodup_cons] at hnd
    simp only [lookupFile] at hl
    simp only [replacePass]
    by_cases hqp : q = p
    · rw [if_pos hqp] at hl
      injection hl with hraw
      cases hraw
      subst hqp
      have hnotch : q ∉ (replacePass repl d rest).1 := fun hc =>
        hnd.1 (replacePass_changed_keys repl d rest hc)
      by_cases ht : isTextFile q
      · rw [if_pos ht]
        by_cases hz : (0 : Nat) ∈ raw
        · rw [if_pos hz]
          refine ⟨?_, hnotch⟩
          simp [lookupFile]
        · have hdec : utf8Decode raw = none := hskip.resolve_left hz
          rw [if_neg hz, hdec]
          refine ⟨?_, hnotch⟩
          simp [lookupFile]
      · rw [if_neg ht]
        refine ⟨?_, hnotch⟩
        simp [lookupFile]
    · rw [if_neg hqp] at hl
      obtain ⟨h1, h2⟩ := ih p raw hnd.2 hl hskip
      have hmem : ∀ x : List Nat,
          lookupFile p ((q, x) :: (replacePass repl d rest).2) = some raw := by
        intro x
        simp only [lookupFile, if_neg hqp]
        exact h1
      have hnc : p ∉ q :: (replacePass repl d rest).1 := fun hc => by
        cases hc with
        | head => exact hqp rfl
        | tail _ hx => exact h2 hx
      by_cases ht : isTextFile q
      · rw [if_pos ht]
        by_cases hz : (0 : Nat) ∈ rawq
        · rw [if_pos hz]
          exact ⟨hmem rawq, h2⟩
        · rw [if_neg hz]
          cases hdec : utf8Decode rawq with
          | none => exact ⟨hmem rawq, h2⟩
          | some t =>
            simp only []
            by_cases hne : applyRepl repl t ≠ t
            · rw [if_pos hne]
              exact ⟨hmem _, hnc⟩
            · rw [if_neg hne]
              exact ⟨hmem rawq, h2⟩
      · rw [if_neg ht]
        exact ⟨hmem rawq, h2⟩

/-- C6: in the argparse script a file whose bytes contain a null byte or do
    not decode as UTF-8 is left byte-for-byte unchanged and never reported as
    changed; in the interactive script only the UTF-8 decoding guard exists,
    so only undecodable files are protected (a decodable file containing a
    null byte is rewritten, see the counterexample). -/
theorem C6_binary_skip :
    (∀ (repl : List (List Char × List Char)) (d : Bool)
        (files : List (String × List Nat)) (p : String) (raw : List Nat),
      (files.map Prod.fst).Nodup → lookupFile p files = some raw →
      (0 ∈ raw ∨ utf8Decode raw = none) →
      lookupFile p (replacePass repl d files).2 = some raw ∧
      p ∉ (replacePass repl d files).1) ∧
    (∀ (snake dash : String) (raw : List Nat), utf8Decode raw = none →
      replaceInFileContent snake dash raw = (false, raw)) := by
  constructor
  · intro repl d files p raw hnd hl hskip
    exact replacePass_skip repl d files p raw hnd hl hskip
  · intro snake dash raw h
    unfold replaceInFileContent
    rw [h]

theorem C6_witness :
    (lookupFile "bin.dat" (replacePass [(TEMPLATE_IMPORT_NAME.data, "x".data)] false
        [("bin.dat", 0 :: asBytes "rag2f_plugin_template")]).2
      = some (0 :: asBytes "rag2f_plugin_template") ∧
     "bin.dat" ∉ (replacePass [(TEMPLATE_IMPORT_NAME.data, "x".data)] false
        [("bin.dat", 0 :: asBytes "rag2f_plugin_template")]).1) ∧
    replaceInFileContent "x" "y" [255] = (false, [255]) :=
  ⟨C6_binary_skip.1 [(TEMPLATE_IMPORT_NAME.data, "x".data)] false
      [("bin.dat", 0 :: asBytes "rag2f_plugin_template")] "bin.dat"
      (0 :: asBytes "rag2f_plugin_template")
      (by decide) (by decide) (Or.inl (by decide)),
   C6_binary_skip.2 "x" "y" [255] (by decide)⟩

/-- C6 counterexample: the interactive script rewrites a null-byte file whose
    bytes decode as UTF-8 and contain the template token, contradicting the
    claim for that source. -/
theorem C6_counterexample :
    (replaceInFileContent "x" "y" (0 :: asBytes "rag2f_plugin_template")).1 = true ∧
    (replaceInFileContent "x" "y" (0 :: asBytes "rag2f_plugin_template")).2 ≠
      0 :: asBytes "rag2f_plugin_template" := by
  constructor
  · decide
  · decide

/-- C7: in the argparse script each structured patch block is skipped without
    error when its target file is missing or its optional value is falsy (the
    entry point patch itself needs no optional value, so with a falsy
    description the pyproject block still applies it), and a run whose rename
    step succeeds and whose two patch targets are absent completes with exit
    status 0; the interactive script is excluded (see the counterexample). -/
theorem C7_patch_skips :
    (∀ (plan : RenamePlan) (d : Bool) (fs : FS) (c : List String),
      fsRead fs pyprojectPath = none → patchPyproject plan d fs c = (fs, .ok c)) ∧
    (∀ (plan : RenamePlan) (d : Bool) (fs : FS) (c : List String),
      fsRead fs pluginJsonPath = none → patchPluginJson plan d fs c = (fs, .ok c)) ∧
    (∀ (plan : RenamePlan) (d : Bool) (fs : FS) (c : List String),
      truthy plan.display_name = false → patchPluginJson plan d fs c = (fs, .ok c)) ∧
    (∀ (plan : RenamePlan) (d : Bool) (fs : FS) (c : List String) (raw : List Nat)
        (text : List Char),
      fsRead fs pyprojectPath = some raw → utf8Decode raw = some text →
      truthy plan.description = false →
      patchPyproject plan d fs c =
        (if entryPointPatch plan.imp_name plan.plugin_id text ≠ text ∧ ¬ d = true then
            fsWrite fs pyprojectPath
              (utf8Encode (entryPointPatch plan.imp_name plan.plugin_id text))
          else fs,
         .ok (if entryPointPatch plan.imp_name plan.plugin_id text ≠ text then
            pushIfAbsent c pyprojectPath else c))) ∧
    (∀ (plan : RenamePlan) (d : Bool) (fs : FS) (fs2 : FS),
      validate plan = .ok () →
      renamePackageDir
        ⟨(replacePass [(TEMPLATE_IMPORT_NAME.data, plan.imp_name.data),
            (TEMPLATE_PACKAGE_NAME.data, plan.pkg_name.data)] d fs.files).2, fs.dirs⟩
        plan d = .ok fs2 →
      fsRead fs2 pyprojectPath = none → fsRead fs2 pluginJsonPath = none →
      runInit plan d fs =
        ⟨fs2, .ok (replacePass [(TEMPLATE_IMPORT_NAME.data, plan.imp_name.data),
            (TEMPLATE_PACKAGE_NAME.data, plan.pkg_name.data)] d fs.files).1⟩) := by
  refine ⟨?_, ?_, ?_, ?_, ?_⟩
  · intro plan d fs c h
    unfold patchPyproject
    rw [h]
  · intro plan d fs c h
    unfold patchPluginJson
    rw [h]
  · intro plan d fs c h
    unfold patchPluginJson
    cases hr : fsRead fs pluginJsonPath with
    | none => rfl
    | some raw =>
      simp only []
      rw [h]
      simp
  · intro plan d fs c raw text h hdec hfd
    unfold patchPyproject
    rw [h]
    simp only []
    rw [hdec]
    simp only []
    rw [hfd]
    simp
  · intro plan d fs fs2 hv hr hpp hpj
    unfold runInit
    rw [hv]
    simp only []
    rw [hr]
    simp only []
    unfold patchPhase
    have h1 : patchPyproject plan d fs2
        (replacePass [(TEMPLATE_IMPORT_NAME.data, plan.imp_name.data),
          (TEMPLATE_PACKAGE_NAME.data, plan.pkg_name.data)] d fs.files).1 =
        (fs2, .ok (replacePass [(TEMPLATE_IMPORT_NAME.data, plan.imp_name.data),
          (TEMPLATE_PACKAGE_NAME.data, plan.pkg_name.data)] d fs.files).1) := by
      unfold patchPyproject
      rw [hpp]
    rw [h1]
    simp only []
    have h2 : patchPluginJson plan d fs2
        (replacePass [(TEMPLATE_IMPORT_NAME.data, plan.imp_name.data),
          (TEMPLATE_PACKAGE_NAME.data, plan.pkg_name.data)] d fs.files).1 =
        (fs2, .ok (replacePass [(TEMPLATE_IMPORT_NAME.data, plan.imp_name.data),
          (TEMPLATE_PACKAGE_NAME.data, plan.pkg_name.data)] d fs.files).1) := by
      unfold patchPluginJson
      rw [hpj]
    rw [h2]

theorem C7_witness :
    patchPyproject ⟨"foo", "bar", "foo", none, none⟩ false ⟨[], []⟩ [] =
      (⟨[], []⟩, .ok []) ∧
    patchPluginJson ⟨"foo", "bar", "foo", none, none⟩ false ⟨[], []⟩ [] =
      (⟨[], []⟩, .ok []) ∧
    patchPluginJson ⟨"foo", "bar", "foo", none, none⟩ false
      ⟨[(pluginJsonPath, asBytes "x")], []⟩ [] =
      (⟨[(pluginJsonPath, asBytes "x")], []⟩, .ok []) ∧
    patchPyproject ⟨"foo", "bar", "foo", none, none⟩ false
      ⟨[(pyprojectPath, asBytes "x")], []⟩ [] =
      (⟨[(pyprojectPath, asBytes "x")], []⟩, .ok []) ∧
    runInit ⟨"foo", "bar", "foo", none, none⟩ false
      ⟨[("README.md", asBytes "hi")], ["src/rag2f_plugin_template"]⟩ =
      ⟨⟨[("README.md", asBytes "hi")], ["src/foo"]⟩, .ok []⟩ := by
  refine ⟨?_, ?_, ?_, ?_, ?_⟩
  · exact C7_patch_skips.1 ⟨"foo", "bar", "foo", none, none⟩ false ⟨[], []⟩ [] (by decide)
  · exact C7_patch_skips.2.1 ⟨"foo", "bar", "foo", none, none⟩ false ⟨[], []⟩ [] (by decide)
  · exact C7_patch_skips.2.2.1 ⟨"foo", "bar", "foo", none, none⟩ false
      ⟨[(pluginJsonPath, asBytes "x")], []⟩ [] (by decide)
  · exact (C7_patch_skips.2.2.2.1 ⟨"foo", "bar", "foo", none, none⟩ false
      ⟨[(pyprojectPath, asBytes "x")], []⟩ [] (asBytes "x") "x".data
      (by decide) (by decide) (by decide)).trans (by decide)
  · exact (C7_patch_skips.2.2.2.2 ⟨"foo", "bar", "foo", none, none⟩ false
      ⟨[("README.md", asBytes "hi")], ["src/rag2f_plugin_template"]⟩
      ⟨[("README.md", asBytes "hi")], ["src/foo"]⟩
      (by decide) (by decide) (by decide) (by decide)).trans (by decide)

/-- C7 counterexample: the interactive script reads plugin.json
    unconditionally, so a repository without that file aborts the run with
    FileNotFoundError instead of skipping the patch. -/
theorem C7_counterexample :
    (runInteractive (fun _ r => .ok r) "My Plugin"
      ⟨[("README.md", asBytes "hi")], []⟩).outcome = .error "FileNotFoundError" := by
  decide

theorem pySpace_of_isImportHead (c : Char) (h : isImportHead c = true) :
    pySpace c = false := by
  cases hs : pySpace c with
  | false => rfl
  | true =>
    exfalso
    unfold pySpace at hs
    simp only [Bool.or_eq_true, decide_eq_true_eq, or_assoc] at hs
    rcases hs with h1 | h1 | h1 | h1 | h1 | h1 <;> subst h1 <;> exact absurd h (by decide)

theorem takeWhile_all_append (p : Char → Bool) :
    ∀ (xs : List Char) (y : Char) (rest : List Char), xs.all p = true → p y = false →
      ((xs ++ y :: rest).takeWhile p) = xs := by
  intro xs
  induction xs with
  | nil =>
    intro y rest hxs hy
    simp [List.takeWhile_cons, hy]
  | cons a as ih =>
    intro y rest hxs hy
    simp only [List.all_cons, Bool.and_eq_true] at hxs
    simp only [List.cons_append, List.takeWhile_cons, hxs.1]
    rw [ih y rest hxs.2 hy]
    simp

theorem takeWhile_all_self (p : Char → Bool) :
    ∀ (xs : List Char), xs.all p = true → xs.takeWhile p = xs := by
  intro xs
  induction xs with
  | nil => intro h; rfl
  | cons a as ih =>
    intro h
    simp only [List.all_cons, Bool.and_eq_true] at h
    simp only [List.takeWhile_cons, h.1]
    rw [ih h.2]
    simp

theorem prefixOf_drop_eq_false (pat l : List Char) (n : Nat)
    (h : containsSeq pat l = false) : pat.isPrefixOf (l.drop n) = false := by
  cases hp : pat.isPrefixOf (l.drop n) with
  | false => rfl
  | true =>
    exfalso
    obtain ⟨t, ht⟩ := List.isPrefixOf_iff_prefix.mp hp
    obtain ⟨s2, hs2⟩ := List.drop_suffix n l
    exact not_infix_of_containsSeq_eq_false pat l h
      ⟨s2, t, by rw [List.append_assoc, ht, hs2]⟩

theorem entryMatchAt_none (key s : List Char) (h : containsSeq key s = false) :
    entryMatchAt key s = none := by
  unfold entryMatchAt
  simp only []
  rw [prefixOf_drop_eq_false key s _ h]
  simp

theorem entrySubGo_id (key pid imp : List Char) :
    ∀ (fuel : Nat) (st : Bool) (s : List Char), containsSeq key s = false →
      entrySubGo key pid imp fuel st s = s := by
  intro fuel
  induction fuel with
  | zero => intro st s h; rfl
  | succ f ih =>
    intro st s h
    cases s with
    | nil =>
      unfold entrySubGo
      by_cases hst : st = true
      · rw [if_pos hst, entryMatchAt_none key [] h]
      · rw [if_neg hst]
    | cons c rest =>
      have hr : containsSeq key rest = false := by
        have hh := h
        simp only [containsSeq, Bool.or_eq_false_iff] at hh
        exact hh.2
      unfold entrySubGo
      by_cases hst : st = true
      · rw [if_pos hst, entryMatchAt_none key (c :: rest) h]
        simp only []
        rw [ih (decide (c = '\n')) rest hr]
      · rw [if_neg hst]
        simp only []
        rw [ih (decide (c = '\n')) rest hr]

theorem entryMatchAt_shape (imp : String) (ws ws1 ws2 wsEnd : List Char)
    (hImp : importNameOk imp = true) (hws : ws.all pySpace = true)
    (h1 : ws1.all pySpace = true) (h2 : ws2.all pySpace = true)
    (h3 : wsEnd.all pySpace = true) :
    entryMatchAt imp.data
      (ws ++ imp.data ++ ws1 ++ '=' :: (ws2 ++ '"' ::
        ((imp.data ++ ((":get_plugin_path\"").data)) ++ wsEnd))) = some (ws, [], false) := by
  unfold importNameOk at hImp
  cases himp : imp.data with
  | nil => rw [himp] at hImp; cases hImp
  | cons c cs =>
    rw [himp] at hImp
    simp only [Bool.and_eq_true] at hImp
    have hc : pySpace c = false := pySpace_of_isImportHead c hImp.1
    have hline : ((ws ++ (c :: cs)) ++ ws1) ++ '=' :: (ws2 ++ '"' ::
        (((c :: cs) ++ ((":get_plugin_path\"").data)) ++ wsEnd)) =
        ws ++ c :: (cs ++ (ws1 ++ '=' :: (ws2 ++ '"' ::
          (((c :: cs) ++ ((":get_plugin_path\"").data)) ++ wsEnd)))) := by
      simp [List.append_assoc]
    unfold entryMatchAt
    rw [hline]
    rw [takeWhile_all_append pySpace ws c _ hws hc]
    simp only []
    rw [List.drop_left]
    have hr1 : c :: (cs ++ (ws1 ++ '=' :: (ws2 ++ '"' ::
        (((c :: cs) ++ ((":get_plugin_path\"").data)) ++ wsEnd)))) =
        (c :: cs) ++ (ws1 ++ '=' :: (ws2 ++ '"' ::
          (((c :: cs) ++ ((":get_plugin_path\"").data)) ++ wsEnd))) := by
      simp [List.append_assoc]
    rw [hr1]
    rw [if_pos (List.isPrefixOf_iff_prefix.mpr (List.prefix_append _ _))]
    rw [List.drop_left]
    rw [takeWhile_all_append pySpace ws1 '=' _ h1 (by decide)]
    rw [List.drop_left]
    simp only []
    rw [takeWhile_all_append pySpace ws2 '"' _ h2 (by decide)]
    rw [List.drop_left]
    have hr5 : '"' :: (((c :: cs) ++ ((":get_plugin_path\"").data)) ++ wsEnd) =
        ('"' :: ((c :: cs) ++ ((":get_plugin_path\"").data))) ++ wsEnd := by
      simp
    rw [hr5]
    rw [if_pos (List.isPrefixOf_iff_prefix.mpr (List.prefix_append _ _))]
    rw [List.drop_left]
    rw [takeWhile_all_self pySpace wsEnd h3]
    rw [List.drop_length]
    rw [if_pos rfl]

theorem entrySubGo_succ_start (key pid imp : List Char) (f : Nat)
    (s g1 after : List Char) (ns : Bool)
    (h : entryMatchAt key s = some (g1, after, ns)) :
    entrySubGo key pid imp (f + 1) true s =
      g1 ++ pid ++ ((" = \"").data) ++ imp ++ ((":get_plugin_path\"").data) ++
        entrySubGo key pid imp f ns after := by
  conv_lhs => unfold entrySubGo
  rw [if_pos rfl, h]

theorem entrySubGo_nil_notstart (key pid imp : List Char) (f : Nat) :
    entrySubGo key pid imp f false [] = [] := by
  cases f with
  | zero => rfl
  | succ n =>
    unfold entrySubGo
    rw [if_neg (by simp)]

/-- C3: the entry point patch of the argparse script is keyed on the NEW
    name of the import given by the plan, not on the template one as claimed:
    a manifest text that nowhere contains the new import name is left
    entirely unchanged (so entries keyed by the template name survive
    whenever the plan chose a different import name), and a canonical
    manifest whose single entry line is keyed by the new import name is
    rewritten so that the key becomes the plugin id while the module path
    keeps the new import name; the pattern is the MULTILINE re.sub whose
    whitespace class crosses newlines, so the trailing whitespace run of the
    text (newlines included) is consumed by the match. -/
theorem C3_entry_patch :
    (∀ (imp pid : String) (t : List Char),
      containsSeq imp.data t = false → entryPointPatch imp pid t = t) ∧
    (∀ (imp pid : String) (ws ws1 ws2 wsEnd : List Char),
      (importNameOk imp = true) → ws.all pySpace = true → ws1.all pySpace = true →
      ws2.all pySpace = true → wsEnd.all pySpace = true →
      entryPointPatch imp pid
        (ws ++ imp.data ++ ws1 ++ '=' :: (ws2 ++ '"' ::
          ((imp.data ++ ((":get_plugin_path\"").data)) ++ wsEnd))) =
        ws ++ pid.data ++ ((" = \"").data) ++ imp.data ++ ((":get_plugin_path\"").data)) := by
  constructor
  · intro imp pid t h
    exact entrySubGo_id imp.data pid.data imp.data (t.length + 1) true t h
  · intro imp pid ws ws1 ws2 wsEnd hImp hws hw1 hw2 hw3
    unfold entryPointPatch
    rw [entrySubGo_succ_start imp.data pid.data imp.data _ _ ws [] false
      (entryMatchAt_shape imp ws ws1 ws2 wsEnd hImp hws hw1 hw2 hw3)]
    rw [entrySubGo_nil_notstart]
    simp

theorem C3_witness :
    entryPointPatch "foo" "bar"
        (("rag2f_plugin_template = \"rag2f_plugin_template:get_plugin_path\"").data) =
      ("rag2f_plugin_template = \"rag2f_plugin_template:get_plugin_path\"").data ∧
    entryPointPatch "foo" "bar"
        ([' ', ' '] ++ ("foo").data ++ [' '] ++ '=' :: ([' '] ++ '"' ::
          ((("foo").data ++ ((":get_plugin_path\"").data)) ++ ['\n']))) =
      [' ', ' '] ++ ("bar").data ++ ((" = \"").data) ++ ("foo").data ++
        ((":get_plugin_path\"").data) ∧
    entryPointPatch "foo" "bar" (("foo = \"foo:get_plugin_path\"\n\nrest").data) =
      ("bar = \"foo:get_plugin_path\"\nrest").data :=
  ⟨C3_entry_patch.1 "foo" "bar"
     (("rag2f_plugin_template = \"rag2f_plugin_template:get_plugin_path\"").data)
     (by decide),
   C3_entry_patch.2 "foo" "bar" [' ', ' '] [' '] [' '] ['\n']
     (by decide) (by decide) (by decide) (by decide) (by decide),
   by decide⟩

/-- C3 counterexample: with a plan whose import name is foo, a manifest text
    keyed by the old template import name is NOT rewritten: the pattern key
    is the new import name, not the template name as the claim states. -/
theorem C3_counterexample :
    entryPointPatch "foo" "foo"
        (("rag2f_plugin_template = \"rag2f_plugin_template:get_plugin_path\"").data) =
      ("rag2f_plugin_template = \"rag2f_plugin_template:get_plugin_path\"").data ∧
    ("rag2f_plugin_template = \"rag2f_plugin_template:get_plugin_path\"").data ≠
      ("foo = \"foo:get_plugin_path\"").data := by
  constructor
  · decide
  · decide
